import Mathlib

/-!
Verification of the `validatexml-go` XML-Schema validator.

This file gives a shallow embedding of the repository's data model and of its
validation and schema-resolution functions, translated from the Go source
(`models.go`, `xsd.go`, and the validator/facet files), and proves properties
of that embedding.

Modelling conventions, applied uniformly:
  * Go strings are Lean `String`s; `strconv` parsers are re-implemented as
    executable Lean functions on character lists.  `float64` values only ever
    arise from parsed decimal literals here, so they are represented exactly as
    rationals (the Go code's lossy `int64 -> float64` conversion and the
    inf/nan/hex-float spellings accepted by `strconv.ParseFloat` are outside
    the inputs used in the theorems below and are noted where relevant).
  * Go maps used only for lookup are association lists with Go's overwrite
    semantics.  Where the Go code *iterates* over a map (whose order Go leaves
    unspecified and randomizes), the embedding takes an explicit enumeration
    oracle `ord : List String -> List String` applied to the first-occurrence
    key list; a faithful oracle returns a permutation of its input.
  * The Go `regexp` package (an external collaborator) appears twice: the
    fixed literal patterns inside `validateBuiltInType` are re-implemented
    directly as decidable character-list recognizers, and user-supplied facet
    patterns go through an abstract engine `rgx : String -> Option (String -> Bool)`
    (`none` models a pattern that fails to compile).
  * File loading and `encoding/xml` decoding (external collaborators of the
    resolver) are modelled by a finite store mapping a schema location to the
    decoded-but-unresolved schema value; `filepath.Abs` is modelled as the
    identity on the already-absolute locations used in the theorems.
-/

namespace XmlParser

/-- Prefix test on character lists. -/
def isPrefixList : List Char → List Char → Bool
  | [], _ => true
  | _ :: _, [] => false
  | a :: as, b :: bs => a == b && isPrefixList as bs

/-- Substring test on character lists. -/
def hasSubstrList (needle : List Char) : List Char → Bool
  | [] => needle.isEmpty
  | c :: rest => isPrefixList needle (c :: rest) || hasSubstrList needle rest

/-- Go `strings.Contains`, also used to state that a message cites a
phrase; written over character lists so that it evaluates by `decide`. -/
def strContains (hay needle : String) : Bool :=
  hasSubstrList needle.data hay.data

/-- Go `strings.HasPrefix`. -/
def strStartsWith (s pre : String) : Bool :=
  isPrefixList pre.data s.data

/-- Whitespace dropped by Go `strings.TrimSpace` (its ASCII part; the rare
Unicode space characters it also drops play no role in the theorems). -/
def isGoSpace (c : Char) : Bool :=
  c == ' ' || c == '\t' || c == '\n' || c == '\r' || c == Char.ofNat 11 || c == Char.ofNat 12

/-- Go `strings.TrimSpace`, written over character lists. -/
def goTrim (s : String) : String :=
  String.mk (((s.data.dropWhile isGoSpace).reverse.dropWhile isGoSpace).reverse)

/-- Splits a character list at every occurrence of a separator. -/
def splitCharList (sep : Char) : List Char → List (List Char)
  | [] => [[]]
  | c :: rest =>
    let r := splitCharList sep rest
    if c == sep then [] :: r
    else
      match r with
      | h :: t => (c :: h) :: t
      | [] => [[c]]

/-- Character class of Go's regexp `\w`, i.e. `[0-9A-Za-z_]` (ASCII). -/
def isWordChar (c : Char) : Bool :=
  c.isAlpha || c.isDigit || c == '_'

/-- Digits of a character list read as a base-10 natural number. -/
def digitsToNat (l : List Char) : Nat :=
  l.foldl (fun acc c => acc * 10 + (c.toNat - '0'.toNat)) 0

/-- Checks that a character list is nonempty and all base-10 digits. -/
def allDigits (l : List Char) : Bool :=
  !l.isEmpty && l.all Char.isDigit

/-- Result of Go `strconv.ParseInt(s, 10, 64)` before the bit-size range
check: optional sign followed by a nonempty digit string. -/
def goParseIntSyntax (s : String) : Option Int :=
  match s.data with
  | '+' :: rest => if allDigits rest then some (digitsToNat rest) else none
  | '-' :: rest => if allDigits rest then some (-(digitsToNat rest : Int)) else none
  | l => if allDigits l then some (digitsToNat l) else none

/-- Go `strconv.ParseInt(s, 10, bits)`: `none` on a syntax or range error. -/
def goParseInt (s : String) (bits : Nat) : Option Int :=
  match goParseIntSyntax s with
  | none => none
  | some v => if -(2 ^ (bits - 1) : Int) ≤ v ∧ v < 2 ^ (bits - 1) then some v else none

/-- Go `strconv.ParseUint(s, 10, bits)`: no sign is permitted. -/
def goParseUint (s : String) (bits : Nat) : Option Nat :=
  if allDigits s.data ∧ digitsToNat s.data < 2 ^ bits then some (digitsToNat s.data) else none

/-- Go `strconv.Atoi(s)` as value-and-ok pair: on a syntax error the value is
`0`, on a 64-bit range error it is the clamped extreme; `false` marks the
error.  The validator sometimes discards the error and uses the value. -/
def goAtoi (s : String) : Int × Bool :=
  match goParseIntSyntax s with
  | none => (0, false)
  | some v =>
    if v < -(2 ^ 63 : Int) then (-(2 ^ 63 : Int), false)
    else if v ≥ (2 ^ 63 : Int) then ((2 ^ 63 : Int) - 1, false)
    else (v, true)

/-- Mantissa-and-exponent accumulator for decimal literals: digits seen so
far and how many of them were after the decimal point. -/
structure FloatAcc where
  mant : Nat
  fracDigits : Nat
  sawDigit : Bool
deriving Repr

/-- Consumes the fractional digits after the decimal point. -/
def eatFrac : List Char → FloatAcc → Option (FloatAcc × List Char)
  | [], acc => some (acc, [])
  | c :: rest, acc =>
    if c.isDigit then
      eatFrac rest { mant := acc.mant * 10 + (c.toNat - '0'.toNat),
                     fracDigits := acc.fracDigits + 1, sawDigit := true }
    else if c == '.' then none
    else some (acc, c :: rest)

/-- Consumes `digits* [. digits*]` greedily, tracking the accumulator. -/
def eatMantissa : List Char → FloatAcc → Option (FloatAcc × List Char)
  | [], acc => some (acc, [])
  | c :: rest, acc =>
    if c.isDigit then
      eatMantissa rest { acc with mant := acc.mant * 10 + (c.toNat - '0'.toNat), sawDigit := true }
    else if c == '.' then
      match eatFrac rest acc with
      | some (acc2, rest2) => some (acc2, rest2)
      | none => none
    else
      some (acc, c :: rest)

/-- Applies a decimal exponent part `[+-]? digits+` to a mantissa value. -/
def goParseExpPart (mantVal : ℚ) (l : List Char) : Option ℚ :=
  match l with
  | '+' :: ds => if allDigits ds then some (mantVal * (10 : ℚ) ^ (digitsToNat ds)) else none
  | '-' :: ds => if allDigits ds then some (mantVal / (10 : ℚ) ^ (digitsToNat ds)) else none
  | ds => if allDigits ds then some (mantVal * (10 : ℚ) ^ (digitsToNat ds)) else none

/-- Go `strconv.ParseFloat(s, 64)` on the decimal forms
`[+-]? (digits [. digits*] | . digits+) ([eE] [+-]? digits+)?`, returning the
exact rational value.  (The inf/nan words and hexadecimal floats Go also
accepts, and overflow to the ErrRange error, are outside this model.) -/
def goParseFloat (s : String) : Option ℚ :=
  let core : List Char → Option ℚ := fun l =>
    match eatMantissa l ⟨0, 0, false⟩ with
    | none => none
    | some (acc, rest) =>
      if !acc.sawDigit then none
      else
        let mantVal : ℚ := (acc.mant : ℚ) / ((10 : ℚ) ^ acc.fracDigits)
        match rest with
        | [] => some mantVal
        | 'e' :: er => goParseExpPart mantVal er
        | 'E' :: er => goParseExpPart mantVal er
        | _ => none
  match s.data with
  | '+' :: rest => core rest
  | '-' :: rest => (core rest).map (fun q => -q)
  | l => core l

/-- Go `xml.Name`: a namespace (resolved prefix) and a local name. -/
structure XmlName where
  space : String
  localName : String
deriving DecidableEq, Repr

/-- Go `xml.Attr`: an attribute name and its value. -/
structure Attr where
  name : XmlName
  value : String
deriving DecidableEq, Repr

/-- Node of the document tree (`models.go`).  The `Parent` back-pointer is
never read by the validator and is omitted. -/
inductive Node where
  | mk : XmlName → List Attr → List Node → String → Node
deriving Repr

/-- Element name of a node. -/
def Node.name : Node → XmlName
  | .mk n _ _ _ => n

/-- Attribute list of a node. -/
def Node.attrs : Node → List Attr
  | .mk _ a _ _ => a

/-- Child elements of a node. -/
def Node.children : Node → List Node
  | .mk _ _ c _ => c

/-- Accumulated text content of a node. -/
def Node.content : Node → String
  | .mk _ _ _ c => c

/-- Document with an optional root; `none` also stands for a nil document. -/
structure Document where
  root : Option Node

/-- Facet: one restriction rule carrying its value (`models.go`). -/
structure Facet where
  value : String
deriving DecidableEq, Repr

/-- Restriction: base type and facets of a simple type (`models.go`). -/
structure Restriction where
  base : String
  minLength : Option Facet
  maxLength : Option Facet
  pattern : Option Facet
  minInclusive : Option Facet
  maxInclusive : Option Facet
  enumeration : List Facet
deriving DecidableEq, Repr

/-- SimpleType: optional name and a restriction (`models.go`). -/
structure SimpleType where
  name : String
  restriction : Option Restriction
deriving DecidableEq, Repr

/-- Attribute declaration of a complex type (`models.go`). -/
structure Attribute where
  name : String
  type : String
  use : String
  dflt : String
  fixed : String
  simpleType : Option SimpleType
deriving DecidableEq, Repr

mutual

/-- Element declaration: name, type reference, occurrence bounds, and the
optional inline type definitions (`models.go`). -/
inductive Element where
  | mk : String → String → String → String → Option ComplexType → Option SimpleType → Element

/-- ComplexType: optional name, at most one content model, attributes. -/
inductive ComplexType where
  | mk : String → Option Sequence → Option Choice → Option All → List Attribute → ComplexType

/-- Sequence content model: child elements plus occurrence bounds. -/
inductive Sequence where
  | mk : List Element → String → String → Sequence

/-- Choice content model: alternatives, nested sequences and choices. -/
inductive Choice where
  | mk : List Element → List Sequence → List Choice → String → String → Choice

/-- All content model: unordered child elements. -/
inductive All where
  | mk : List Element → String → All

end

/-- Name of an element declaration. -/
def Element.name : Element → String
  | .mk n _ _ _ _ _ => n

/-- Type reference of an element declaration. -/
def Element.type : Element → String
  | .mk _ t _ _ _ _ => t

/-- Declared minOccurs attribute text (empty when unspecified). -/
def Element.minOccurs : Element → String
  | .mk _ _ m _ _ _ => m

/-- Declared maxOccurs attribute text (empty when unspecified). -/
def Element.maxOccurs : Element → String
  | .mk _ _ _ m _ _ => m

/-- Inline complex type of an element declaration. -/
def Element.complexType : Element → Option ComplexType
  | .mk _ _ _ _ c _ => c

/-- Inline simple type of an element declaration. -/
def Element.simpleType : Element → Option SimpleType
  | .mk _ _ _ _ _ s => s

/-- Name of a complex type. -/
def ComplexType.name : ComplexType → String
  | .mk n _ _ _ _ => n

/-- Sequence content model of a complex type. -/
def ComplexType.sequence : ComplexType → Option Sequence
  | .mk _ s _ _ _ => s

/-- Choice content model of a complex type. -/
def ComplexType.choice : ComplexType → Option Choice
  | .mk _ _ c _ _ => c

/-- All content model of a complex type. -/
def ComplexType.all : ComplexType → Option All
  | .mk _ _ _ a _ => a

/-- Attribute declarations of a complex type. -/
def ComplexType.attributes : ComplexType → List Attribute
  | .mk _ _ _ _ a => a

/-- Elements of a sequence. -/
def Sequence.elements : Sequence → List Element
  | .mk e _ _ => e

/-- Declared minOccurs of a sequence. -/
def Sequence.minOccurs : Sequence → String
  | .mk _ m _ => m

/-- Declared maxOccurs of a sequence. -/
def Sequence.maxOccurs : Sequence → String
  | .mk _ _ m => m

/-- Direct element alternatives of a choice. -/
def Choice.elements : Choice → List Element
  | .mk e _ _ _ _ => e

/-- Nested sequences of a choice. -/
def Choice.sequences : Choice → List Sequence
  | .mk _ s _ _ _ => s

/-- Nested choices of a choice. -/
def Choice.choices : Choice → List Choice
  | .mk _ _ c _ _ => c

/-- Declared minOccurs of a choice. -/
def Choice.minOccurs : Choice → String
  | .mk _ _ _ m _ => m

/-- Declared maxOccurs of a choice. -/
def Choice.maxOccurs : Choice → String
  | .mk _ _ _ _ m => m

/-- Elements of an all group. -/
def All.elements : All → List Element
  | .mk e _ => e

/-- Declared minOccurs of an all group. -/
def All.minOccurs : All → String
  | .mk _ m => m

/-- Import reference (`models.go`): expected namespace and location. -/
structure Import where
  namespaceUri : String
  schemaLocation : String
deriving Repr

/-- Include reference (`models.go`): a schema location. -/
structure Include where
  schemaLocation : String
deriving Repr

/-- Schema: the root declaration set of `models.go`, with the lookup tables
modelled as association lists with unique keys. -/
structure Schema where
  targetNamespace : String
  elementFormDefault : String
  xmlns : List (String × String)
  elements : List Element
  complexTypes : List ComplexType
  simpleTypes : List SimpleType
  imports : List Import
  includes : List Include
  elementMap : List (String × Element)
  complexTypeMap : List (String × ComplexType)
  simpleTypeMap : List (String × SimpleType)

/-- Association-list lookup, first match: models a Go map read. -/
def lookupAssoc {α : Type} (m : List (String × α)) (k : String) : Option α :=
  (m.find? (fun p => p.1 == k)).map Prod.snd

/-- QName with namespace prefix, local name and resolved namespace URI. -/
structure QName where
  pfx : String
  localName : String
  namespaceUri : String
deriving DecidableEq, Repr

/-- ParseQName (`models.go`): split a qualified name on its first colon. -/
def parseQName (qname : String) : QName :=
  match splitCharList ':' qname.data with
  | p :: q :: rest => ⟨String.mk p, String.intercalate ":" ((q :: rest).map String.mk), ""⟩
  | _ => ⟨"", qname, ""⟩

/-- ResolveQName (`models.go`): resolve the prefix in the namespace table. -/
def Schema.resolveQName (s : Schema) (qname : String) : QName :=
  let parsed := parseQName qname
  match lookupAssoc s.xmlns parsed.pfx with
  | some ns => { parsed with namespaceUri := ns }
  | none => parsed

/-- IsQualified (`models.go`). -/
def Schema.isQualified (s : Schema) (elementName : String) : Bool :=
  s.elementFormDefault == "qualified" || elementName.data.contains ':'

/-- GetElementKey (`models.go`): lookup key for a document element name. -/
def Schema.getElementKey (s : Schema) (n : XmlName) : String :=
  if s.isQualified n.localName && n.space != "" then
    if n.space == s.targetNamespace then n.localName
    else n.space ++ ":" ++ n.localName
  else n.localName

/-- The elementsMatch comparison of the validator (part_002). -/
def Schema.elementsMatch (s : Schema) (childName : XmlName) (schemaElementName : String) : Bool :=
  if !(schemaElementName.data.contains ':') then
    childName.localName == schemaElementName
  else
    let resolved := s.resolveQName schemaElementName
    childName.localName == resolved.localName &&
      (childName.space == resolved.namespaceUri ||
        (childName.space == s.targetNamespace && resolved.namespaceUri == s.targetNamespace))

/-- Consumes exactly `n` base-10 digits. -/
def eatNDigits : Nat → List Char → Option (List Char)
  | 0, l => some l
  | _ + 1, [] => none
  | n + 1, c :: rest => if c.isDigit then eatNDigits n rest else none

/-- Consumes one expected character. -/
def eatChar (c : Char) : List Char → Option (List Char)
  | [] => none
  | d :: rest => if d == c then some rest else none

/-- Recognizer for the anchored pattern `\d{4}-\d{2}-\d{2}` of `xs:date`. -/
def reDate (l : List Char) : Bool :=
  match (eatNDigits 4 l).bind (eatChar '-') |>.bind (eatNDigits 2)
      |>.bind (eatChar '-') |>.bind (eatNDigits 2) with
  | some rest => rest.isEmpty
  | none => false

/-- Consumes `\d{2}:\d{2}:\d{2}`. -/
def eatTimeCore (l : List Char) : Option (List Char) :=
  (eatNDigits 2 l).bind (eatChar ':') |>.bind (eatNDigits 2)
    |>.bind (eatChar ':') |>.bind (eatNDigits 2)

/-- Consumes the optional fractional-seconds group `(\.\d+)?`. -/
def eatOptFrac : List Char → Option (List Char)
  | '.' :: rest =>
    let ds := rest.takeWhile Char.isDigit
    if ds.isEmpty then none else some (rest.drop ds.length)
  | l => some l

/-- Accepts the optional zone suffix `(Z|[+-]\d{2}:\d{2})?` at end of input. -/
def eatOptZone : List Char → Bool
  | [] => true
  | ['Z'] => true
  | '+' :: rest => (match (eatNDigits 2 rest).bind (eatChar ':') |>.bind (eatNDigits 2) with
                    | some r => r.isEmpty
                    | none => false)
  | '-' :: rest => (match (eatNDigits 2 rest).bind (eatChar ':') |>.bind (eatNDigits 2) with
                    | some r => r.isEmpty
                    | none => false)
  | _ => false

/-- Recognizer for the `xs:time` pattern. -/
def reTime (l : List Char) : Bool :=
  match (eatTimeCore l).bind eatOptFrac with
  | some rest => eatOptZone rest
  | none => false

/-- Recognizer for the `xs:dateTime` pattern. -/
def reDateTime (l : List Char) : Bool :=
  match (eatNDigits 4 l).bind (eatChar '-') |>.bind (eatNDigits 2)
      |>.bind (eatChar '-') |>.bind (eatNDigits 2) |>.bind (eatChar 'T')
      |>.bind eatTimeCore |>.bind eatOptFrac with
  | some rest => eatOptZone rest
  | none => false

/-- Consumes an optional `(\d+X)?` group of the duration pattern: digits are
consumed only when immediately followed by the tag character, which is how
the backtracking regex behaves since no other group could absorb them. -/
def eatNumTag (tag : Char) (l : List Char) : List Char :=
  let ds := l.takeWhile Char.isDigit
  if ds.isEmpty then l
  else
    match l.drop ds.length with
    | t :: rest => if t == tag then rest else l
    | [] => l

/-- Consumes the optional seconds group `(\d+(\.\d+)?S)?` of the duration. -/
def eatSecTag (l : List Char) : List Char :=
  let ds := l.takeWhile Char.isDigit
  if ds.isEmpty then l
  else
    match l.drop ds.length with
    | 'S' :: rest => rest
    | '.' :: rest2 =>
      let ds2 := rest2.takeWhile Char.isDigit
      if ds2.isEmpty then l
      else
        match rest2.drop ds2.length with
        | 'S' :: rest3 => rest3
        | _ => l
    | _ => l

/-- Recognizer for the `xs:duration` pattern
`-?P(\d+Y)?(\d+M)?(\d+D)?(T(\d+H)?(\d+M)?(\d+(\.\d+)?S)?)?`. -/
def reDuration (l : List Char) : Bool :=
  let l1 := match l with
            | '-' :: r => r
            | r => r
  match l1 with
  | 'P' :: r =>
    let r := eatNumTag 'Y' r
    let r := eatNumTag 'M' r
    let r := eatNumTag 'D' r
    (match r with
     | 'T' :: r2 =>
       let r2 := eatNumTag 'H' r2
       let r2 := eatNumTag 'M' r2
       let r2 := eatSecTag r2
       r2.isEmpty
     | _ => r.isEmpty)
  | _ => false

/-- Tail character class `[\w\-\.]` of the name patterns. -/
def isNameTailChar (c : Char) : Bool :=
  isWordChar c || c == '-' || c == '.'

/-- Recognizer for `^[a-zA-Z_:][\w\-\.]*$` (`xs:Name`). -/
def reXsName (l : List Char) : Bool :=
  match l with
  | c :: rest => (c.isAlpha || c == '_' || c == ':') && rest.all isNameTailChar
  | [] => false

/-- Recognizer for `^[a-zA-Z_][\w\-\.]*$` (`xs:NCName`, `xs:ID`, `xs:IDREF`). -/
def reNCName (l : List Char) : Bool :=
  match l with
  | c :: rest => (c.isAlpha || c == '_') && rest.all isNameTailChar
  | [] => false

/-- Base64 alphabet `[A-Za-z0-9+/]`. -/
def isB64Char (c : Char) : Bool :=
  c.isAlpha || c.isDigit || c == '+' || c == '/'

/-- Recognizer for `^[A-Za-z0-9+/]*={0,2}$` (`xs:base64Binary`). -/
def reBase64 (l : List Char) : Bool :=
  let rev := l.reverse
  let eqs := rev.takeWhile (· == '=')
  eqs.length ≤ 2 && (rev.drop eqs.length).all isB64Char

/-- Hexadecimal character class `[0-9A-Fa-f]`. -/
def isHexChar (c : Char) : Bool :=
  c.isDigit || ('A' ≤ c && c ≤ 'F') || ('a' ≤ c && c ≤ 'f')

/-- validateBuiltInType (part_000): validates trimmed content against the
built-in type grammars; `none` means valid, `some msg` carries the error
text.  An unknown type name is skipped.  (Lean's `String.trim` drops ASCII
whitespace where Go's `strings.TrimSpace` also drops rarer Unicode spaces;
no theorem below depends on those characters.) -/
def validateBuiltInType (content0 typeName : String) : Option String :=
  let content := goTrim content0
  if typeName == "xs:integer" then
    match goParseInt content 64 with
    | none => some ("value '" ++ content ++ "' is not a valid integer")
    | some _ => none
  else if typeName == "xs:int" then
    match goParseInt content 32 with
    | none => some ("value '" ++ content ++ "' is not a valid int")
    | some v =>
      if v > 2147483647 ∨ v < -2147483648 then
        some ("value '" ++ content ++ "' is out of range for int")
      else none
  else if typeName == "xs:long" then
    match goParseInt content 64 with
    | none => some ("value '" ++ content ++ "' is not a valid long")
    | some _ => none
  else if typeName == "xs:short" then
    match goParseInt content 16 with
    | none => some ("value '" ++ content ++ "' is not a valid short")
    | some v =>
      if v > 32767 ∨ v < -32768 then
        some ("value '" ++ content ++ "' is out of range for short")
      else none
  else if typeName == "xs:byte" then
    match goParseInt content 8 with
    | none => some ("value '" ++ content ++ "' is not a valid byte")
    | some v =>
      if v > 127 ∨ v < -128 then
        some ("value '" ++ content ++ "' is out of range for byte")
      else none
  else if typeName == "xs:nonNegativeInteger" then
    match goParseInt content 64 with
    | none => some ("value '" ++ content ++ "' is not a valid nonNegativeInteger")
    | some v => if v < 0 then some ("value '" ++ content ++ "' must be non-negative") else none
  else if typeName == "xs:positiveInteger" then
    match goParseInt content 64 with
    | none => some ("value '" ++ content ++ "' is not a valid positiveInteger")
    | some v => if v ≤ 0 then some ("value '" ++ content ++ "' must be positive") else none
  else if typeName == "xs:unsignedInt" then
    match goParseUint content 32 with
    | none => some ("value '" ++ content ++ "' is not a valid unsignedInt")
    | some v =>
      if v > 4294967295 then
        some ("value '" ++ content ++ "' is out of range for unsignedInt")
      else none
  else if typeName == "xs:decimal" then
    match goParseFloat content with
    | none => some ("value '" ++ content ++ "' is not a valid decimal")
    | some _ => none
  else if typeName == "xs:double" then
    match goParseFloat content with
    | none => some ("value '" ++ content ++ "' is not a valid double")
    | some _ => none
  else if typeName == "xs:float" then
    match goParseFloat content with
    | none => some ("value '" ++ content ++ "' is not a valid float")
    | some _ => none
  else if typeName == "xs:boolean" then
    if content != "true" && content != "false" && content != "1" && content != "0" then
      some ("value '" ++ content ++ "' is not a valid boolean (expected: true, false, 1, or 0)")
    else none
  else if typeName == "xs:date" then
    if !reDate content.data then
      some ("value '" ++ content ++ "' is not a valid date (expected format: YYYY-MM-DD)")
    else none
  else if typeName == "xs:dateTime" then
    if !reDateTime content.data then
      some ("value '" ++ content ++ "' is not a valid dateTime (expected format: YYYY-MM-DDTHH:mm:ss)")
    else none
  else if typeName == "xs:time" then
    if !reTime content.data then
      some ("value '" ++ content ++ "' is not a valid time (expected format: HH:mm:ss)")
    else none
  else if typeName == "xs:gYear" then
    if !(match eatNDigits 4 content.data with
         | some r => r.isEmpty
         | none => false) then
      some ("value '" ++ content ++ "' is not a valid gYear (expected format: YYYY)")
    else none
  else if typeName == "xs:gMonth" then
    if !(match (eatChar '-' content.data).bind (eatChar '-') |>.bind (eatNDigits 2) with
         | some r => r.isEmpty
         | none => false) then
      some ("value '" ++ content ++ "' is not a valid gMonth (expected format: --MM)")
    else none
  else if typeName == "xs:gDay" then
    if !(match (eatChar '-' content.data).bind (eatChar '-') |>.bind (eatChar '-')
            |>.bind (eatNDigits 2) with
         | some r => r.isEmpty
         | none => false) then
      some ("value '" ++ content ++ "' is not a valid gDay (expected format: ---DD)")
    else none
  else if typeName == "xs:duration" then
    if !reDuration content.data then
      some ("value '" ++ content ++ "' is not a valid duration (expected format: PnYnMnDTnHnMnS)")
    else none
  else if typeName == "xs:string" || typeName == "xs:normalizedString" then
    none
  else if typeName == "xs:token" then
    if goTrim content != content || strContains content "  " then
      some ("value '" ++ content ++ "' is not a valid token (no leading/trailing/consecutive whitespace allowed)")
    else none
  else if typeName == "xs:Name" then
    if !reXsName content.data then
      some ("value '" ++ content ++ "' is not a valid Name")
    else none
  else if typeName == "xs:NCName" then
    if !reNCName content.data then
      some ("value '" ++ content ++ "' is not a valid NCName (no colons allowed)")
    else none
  else if typeName == "xs:ID" || typeName == "xs:IDREF" then
    if !reNCName content.data then
      some ("value '" ++ content ++ "' is not a valid " ++ typeName)
    else none
  else if typeName == "xs:anyURI" then
    if content == "" then some "URI cannot be empty"
    else if content.data.contains ' ' then
      some ("value '" ++ content ++ "' is not a valid URI (contains spaces)")
    else none
  else if typeName == "xs:base64Binary" then
    if !reBase64 content.data then
      some ("value '" ++ content ++ "' is not valid base64Binary")
    else none
  else if typeName == "xs:hexBinary" then
    if !content.data.all isHexChar then
      some ("value '" ++ content ++ "' is not valid hexBinary")
    else none
  else
    none

/-- Abstract engine for user-supplied facet patterns, standing for Go's
`regexp` package: `none` models a pattern that does not compile, `some m`
a compiled matcher.  In Go the engine is deterministic across calls, so one
engine value is shared by both runs in the determinism claims. -/
abbrev RegexEngine := String → Option (String → Bool)

/-- Enumeration oracle for Go map iteration: applied to the list of map keys
in first-insertion order; a faithful oracle returns a permutation. -/
abbrev MapOrd := List String → List String

/-- validatePattern (part_000), with the regexp engine abstracted. -/
def validatePattern (rgx : RegexEngine) (content pattern : String) : Option String :=
  match rgx pattern with
  | none => some ("invalid pattern in schema: " ++ pattern)
  | some m =>
    if m content then none
    else some ("value '" ++ content ++ "' does not match pattern '" ++ pattern ++ "'")

/-- validateEnumeration (part_000): `none` when the content is one of the
allowed values, otherwise the message listing all of them. -/
def validateEnumeration (content : String) (enumerations : List Facet) : Option String :=
  if enumerations.any (fun e => content == e.value) then none
  else
    some ("value '" ++ content ++ "' is not in the list of allowed values: [" ++
      String.intercalate ", " (enumerations.map Facet.value) ++ "]")

/-- validateLengthConstraints (part_000).  Go measures `len(content)` in
bytes; the model uses the character count, which agrees on the ASCII strings
appearing in the theorems below. -/
def validateLengthConstraints (content : String) (restriction : Restriction) : List String :=
  (match restriction.minLength with
   | some f =>
     if f.value != "" then
       match goAtoi f.value with
       | (_, false) => ["invalid minLength value in schema: " ++ f.value]
       | (minLen, true) =>
         if (content.length : Int) < minLen then
           ["value '" ++ content ++ "' is too short (minimum length: " ++ toString minLen ++
             ", actual: " ++ toString content.length ++ ")"]
         else []
     else []
   | none => []) ++
  (match restriction.maxLength with
   | some f =>
     if f.value != "" then
       match goAtoi f.value with
       | (_, false) => ["invalid maxLength value in schema: " ++ f.value]
       | (maxLen, true) =>
         if (content.length : Int) > maxLen then
           ["value '" ++ content ++ "' is too long (maximum length: " ++ toString maxLen ++
             ", actual: " ++ toString content.length ++ ")"]
         else []
     else []
   | none => [])

/-- parseNumericValues (part_000): parses the content and the facet limit
according to the restriction base type.  Integer-family bases check the
content first, then the limit; the default branch silently skips the check
(returning the zero pair) whenever the content is not numeric, before the
limit is even looked at. -/
def parseNumericValues (content0 limitValue baseType : String) : Except String (ℚ × ℚ) :=
  let content := goTrim content0
  if baseType == "xs:integer" || baseType == "xs:int" || baseType == "xs:long" ||
     baseType == "xs:short" || baseType == "xs:byte" then
    match goParseInt content 64, goParseInt limitValue 64 with
    | none, _ => .error ("value '" ++ content ++ "' is not a valid integer")
    | some _, none => .error ("invalid limit value in schema: " ++ limitValue)
    | some a, some b => .ok ((a : ℚ), (b : ℚ))
  else if baseType == "xs:decimal" || baseType == "xs:double" || baseType == "xs:float" then
    match goParseFloat content, goParseFloat limitValue with
    | none, _ => .error ("value '" ++ content ++ "' is not a valid decimal number")
    | some _, none => .error ("invalid limit value in schema: " ++ limitValue)
    | some a, some b => .ok (a, b)
  else
    match goParseFloat content, goParseFloat limitValue with
    | none, _ => .ok (0, 0)
    | some _, none => .error ("invalid limit value in schema: " ++ limitValue)
    | some a, some b => .ok (a, b)

/-- validateNumericRange (part_000): `none` when no violation. -/
def validateNumericRange (content limitValue : String) (isMin inclusive : Bool)
    (baseType : String) : Option String :=
  match parseNumericValues content limitValue baseType with
  | .error e => some e
  | .ok (contentNum, limitNum) =>
    let violatesRange :=
      if isMin then
        (inclusive && contentNum < limitNum) || (!inclusive && contentNum ≤ limitNum)
      else
        (inclusive && contentNum > limitNum) || (!inclusive && contentNum ≥ limitNum)
    if violatesRange then
      let direction := if isMin then "below minimum" else "exceeds maximum"
      some ("value '" ++ content ++ "' " ++ direction ++ " allowed value " ++ limitValue)
    else none

/-- validateNumericConstraints (part_000). -/
def validateNumericConstraints (content : String) (restriction : Restriction) : List String :=
  (match restriction.minInclusive with
   | some f =>
     if f.value != "" then
       match validateNumericRange content f.value true true restriction.base with
       | some e => [e]
       | none => []
     else []
   | none => []) ++
  (match restriction.maxInclusive with
   | some f =>
     if f.value != "" then
       match validateNumericRange content f.value false true restriction.base with
       | some e => [e]
       | none => []
     else []
   | none => [])

/-- validateSimpleTypeConstraints (part_002): pattern, enumeration, length
and numeric facets, all checked independently and accumulated. -/
def validateSimpleTypeConstraints (rgx : RegexEngine) (content : String)
    (simpleType : SimpleType) : List String :=
  match simpleType.restriction with
  | none => []
  | some restriction =>
    (match restriction.pattern with
     | some f =>
       if f.value != "" then
         match validatePattern rgx content f.value with
         | some e => [e]
         | none => []
       else []
     | none => []) ++
    (if !restriction.enumeration.isEmpty then
       match validateEnumeration content restriction.enumeration with
       | some e => [e]
       | none => []
     else []) ++
    validateLengthConstraints content restriction ++
    validateNumericConstraints content restriction

/-- Worker of buildElementMap (`xsd.go`): walks the declarations with their
index, failing on a missing name or a key already present, and otherwise
inserting at the end, so the table keeps unique keys. -/
def buildNamedMap {α : Type} (kind : String) (getName : α → String) (idx : Nat)
    (acc : List (String × α)) : List α → Except String (List (String × α))
  | [] => .ok acc
  | x :: rest =>
    if getName x == "" then
      .error ("schema " ++ kind ++ " at index " ++ toString idx ++
        " is missing required 'name' attribute")
    else
      match lookupAssoc acc (getName x) with
      | some _ => .error ("duplicate " ++ kind ++ " definition: '" ++ getName x ++ "'")
      | none => buildNamedMap kind getName (idx + 1) (acc ++ [(getName x, x)]) rest

/-- buildLookupMaps (`xsd.go`): builds the three lookup tables, short-
circuiting on the first missing or duplicate top-level name. -/
def Schema.buildLookupMaps (s : Schema) : Except String Schema := do
  let em ← buildNamedMap "element" Element.name 0 [] s.elements
  let cm ← buildNamedMap "complexType" ComplexType.name 0 [] s.complexTypes
  let sm ← buildNamedMap "simpleType" SimpleType.name 0 [] s.simpleTypes
  .ok { s with elementMap := em, complexTypeMap := cm, simpleTypeMap := sm }

/-- getComplexType (part_002): inline definition first, then the table. -/
def Schema.getComplexType (s : Schema) (d : Element) : Option ComplexType :=
  match d.complexType with
  | some ct => some ct
  | none => lookupAssoc s.complexTypeMap d.type

/-- findSimpleType (part_002): inline, then named lookup; a non-built-in
type reference that resolves nowhere is an error. -/
def Schema.findSimpleType (s : Schema) (d : Element) : Except String (Option SimpleType) :=
  match d.simpleType with
  | some st => .ok (some st)
  | none =>
    if d.type != "" then
      match lookupAssoc s.simpleTypeMap d.type with
      | some st => .ok (some st)
      | none =>
        if strStartsWith d.type "xs:" then .ok none
        else .error ("type definition '" ++ d.type ++ "' not found in schema")
    else .ok none

/-- Lookup in the `countChildren` map of part_002: the map counts every
child (matched or not) under its local name, so a read returns the number
of children carrying that local name, `0` when absent. -/
def countLocalName (cs : List Node) (k : String) : Nat :=
  (cs.filter (fun c => c.name.localName == k)).length

/-- Worker of `dedupFirst` carrying the keys already seen. -/
def dedupFirstAux (seen : List String) : List String → List String
  | [] => []
  | k :: rest =>
    if seen.contains k then dedupFirstAux seen rest
    else k :: dedupFirstAux (seen ++ [k]) rest

/-- Key list of a Go map whose keys were inserted in first-occurrence order
of the given list; duplicates collapse onto their first occurrence. -/
def dedupFirst (l : List String) : List String :=
  dedupFirstAux [] l

/-- findChildElement (part_002): first declared sequence element matching
the child's qualified name. -/
def Schema.findChildElement (s : Schema) (childName : XmlName) (q : Sequence) : Option Element :=
  q.elements.find? (fun e => s.elementsMatch childName e.name)

/-- findAllElement (part_000). -/
def Schema.findAllElement (s : Schema) (childName : XmlName) (a : All) : Option Element :=
  a.elements.find? (fun e => s.elementsMatch childName e.name)

mutual

/-- findChoiceElement (part_000): direct elements, then elements of nested
sequences, then nested choices, recursively. -/
def Schema.findChoiceElement (s : Schema) (childName : XmlName) : Choice → Option Element
  | .mk elems seqs chos _ _ =>
    match elems.find? (fun e => s.elementsMatch childName e.name) with
    | some e => some e
    | none =>
      match (seqs.map Sequence.elements).flatten.find?
          (fun e => s.elementsMatch childName e.name) with
      | some e => some e
      | none => Schema.findChoiceInList s childName chos

/-- First hit of findChoiceElement over a list of nested choices. -/
def Schema.findChoiceInList (s : Schema) (childName : XmlName) : List Choice → Option Element
  | [] => none
  | c :: rest =>
    match Schema.findChoiceElement s childName c with
    | some e => some e
    | none => Schema.findChoiceInList s childName rest

end

/-- Read of the `attrValues` map of validateAttributes: built over the
attribute list keyed by local name, later entries overwriting earlier
ones, so a lookup returns the last value. -/
def attrValuesLookup (attrs : List Attr) (k : String) : Option String :=
  attrs.foldl (fun acc a => if a.name.localName == k then some a.value else acc) none

/-- isNamespaceDeclaration (part_002). -/
def Schema.isNamespaceDeclaration (_s : Schema) (a : Attr) : Bool :=
  a.name.space == "xmlns" || a.name.localName == "xmlns"

/-- validateAttributes (part_002): required, fixed, built-in-type and inline
simple-type checks over the declared attributes, then the sweep reporting
undeclared non-namespace attributes.  The node is passed as its local name
and attribute list, the only fields the Go function reads. -/
def Schema.validateAttributes (rgx : RegexEngine) (s : Schema) (nLocal : String)
    (nAttrs : List Attr) (attributeDefs : List Attribute) : List String :=
  (attributeDefs.flatMap (fun ad =>
    match attrValuesLookup nAttrs ad.name with
    | none =>
      if ad.use == "required" then
        ["required attribute '" ++ ad.name ++ "' is missing from element <" ++ nLocal ++ ">"]
      else []
    | some v =>
      (if ad.fixed != "" && v != ad.fixed then
        ["attribute '" ++ ad.name ++ "' in element <" ++ nLocal ++
          "> has fixed value '" ++ ad.fixed ++ "', but got '" ++ v ++ "'"]
       else []) ++
      (if ad.type != "" && strStartsWith ad.type "xs:" then
        match validateBuiltInType v ad.type with
        | some e => ["attribute '" ++ ad.name ++ "' in element <" ++ nLocal ++ ">: " ++ e]
        | none => []
       else []) ++
      (match ad.simpleType with
       | some st =>
         (validateSimpleTypeConstraints rgx v st).map (fun e =>
           "attribute '" ++ ad.name ++ "' in element <" ++ nLocal ++ ">: " ++ e)
       | none => []))) ++
  (nAttrs.flatMap (fun a =>
    if s.isNamespaceDeclaration a then []
    else if attributeDefs.any (fun ad => ad.name == a.name.localName) then []
    else ["unexpected attribute '" ++ a.name.localName ++ "' in element <" ++ nLocal ++ ">"]))

/-- validateTextContent (part_002): built-in type check and simple-type
facet check on the trimmed text, both run and both reported.  The node is
passed as its accumulated text, the only field the Go function reads. -/
def Schema.validateTextContent (rgx : RegexEngine) (s : Schema) (content0 : String)
    (d : Element) : List String :=
  let content := goTrim content0
  (if d.type != "" && strStartsWith d.type "xs:" then
     match validateBuiltInType content d.type with
     | some e => ["in element <" ++ d.name ++ ">: " ++ e]
     | none => []
   else []) ++
  (match s.findSimpleType d with
   | .error e => ["in element <" ++ d.name ++ ">: " ++ e]
   | .ok none => []
   | .ok (some st) =>
     (validateSimpleTypeConstraints rgx content st).map (fun e =>
       "in element <" ++ d.name ++ ">: " ++ e))

/-- validateSequenceOccurrences (part_000): per declared element, the
observed count of its name is compared with the bounds; the Atoi error on
minOccurs is discarded while a malformed maxOccurs is reported. -/
def validateSequenceOccurrences (parentLocal : String) (q : Sequence) (cs : List Node) :
    List String :=
  q.elements.flatMap (fun e =>
    let count : Int := (countLocalName cs e.name : Int)
    (if e.minOccurs != "" then
       let mn := (goAtoi e.minOccurs).1
       if count < mn then
         ["element <" ++ parentLocal ++ "> requires at least " ++ toString mn ++ " <" ++
           e.name ++ "> child, but found " ++ toString count]
       else []
     else []) ++
    (if e.maxOccurs != "" && e.maxOccurs != "unbounded" then
       match goAtoi e.maxOccurs with
       | (_, false) =>
         ["invalid maxOccurs value in schema for element <" ++ e.name ++ ">: " ++ e.maxOccurs]
       | (mx, true) =>
         if count > mx then
           ["element <" ++ parentLocal ++ "> allows at most " ++ toString mx ++ " <" ++
             e.name ++ "> child, but found " ++ toString count]
         else []
     else []))

mutual

/-- validateNode (part_002): leaf text validation, then the complex-type
structure (attributes and the dispatch to the one populated content model).
The per-model logic is inlined here so that the recursion over the document
tree is structural; the named per-model validators defined after this block
are definitionally equal unfoldings of the corresponding branches, see
`validateNodeO_eq`. -/
def validateNodeO (rgx : RegexEngine) (ord : MapOrd) (s : Schema) : Node → Element → List String
  | .mk nm attrs ch content, d =>
    (if ch.isEmpty && goTrim content != "" then s.validateTextContent rgx content d else []) ++
    (match s.getComplexType d with
     | some ct =>
       s.validateAttributes rgx nm.localName attrs ct.attributes ++
       (match ct.sequence with
        | some q =>
          seqChildrenO rgx ord s nm.localName q ch ++
          validateSequenceOccurrences nm.localName q ch
        | none =>
          match ct.choice with
          | some cho =>
            if ch.isEmpty then
              (if cho.minOccurs == "" || cho.minOccurs != "0" then
                 ["element <" ++ nm.localName ++ "> must contain at least one choice element"]
               else [])
            else
              let maxO : Int :=
                if cho.maxOccurs != "" then
                  if cho.maxOccurs == "unbounded" then -1
                  else
                    match goAtoi cho.maxOccurs with
                    | (v, true) => v
                    | (_, false) => 1
                else 1
              let p := choiceChildrenO rgx ord s nm.localName cho ch
              let distinct := dedupFirst p.2
              p.1 ++
              (if maxO == 1 && distinct.length > 1 then
                 ["element <" ++ nm.localName ++
                   "> choice allows only one alternative, but found: [" ++
                   String.intercalate ", " (ord distinct) ++ "]"]
               else [])
          | none =>
            match ct.all with
            | some al =>
              (ord (dedupFirst (ch.map (fun c => c.name.localName)))).filterMap (fun k =>
                let cnt := countLocalName ch k
                if cnt > 1 then
                  some ("element <" ++ k ++ "> appears " ++ toString cnt ++
                    " times in xs:all group, but maximum is 1")
                else none) ++
              allChildrenO rgx ord s nm.localName al ch ++
              al.elements.flatMap (fun e =>
                if (e.minOccurs == "" || e.minOccurs != "0") &&
                    countLocalName ch e.name == 0 then
                  ["required element <" ++ e.name ++ "> is missing from xs:all group in <" ++
                    nm.localName ++ ">"]
                else [])
            | none => [])
     | none =>
       if !ch.isEmpty then
         ["element <" ++ nm.localName ++ "> should be empty but has children"]
       else [])

/-- Loop of validateSequence over the children: a matched child is
recursively validated, an unmatched one yields the not-a-valid-child
message and is not descended into. -/
def seqChildrenO (rgx : RegexEngine) (ord : MapOrd) (s : Schema) (parentLocal : String)
    (q : Sequence) : List Node → List String
  | [] => []
  | c :: rest =>
    (match s.findChildElement c.name q with
     | some cd => validateNodeO rgx ord s c cd
     | none =>
       ["element <" ++ c.name.localName ++ "> is not a valid child of <" ++ parentLocal ++ ">"]) ++
    seqChildrenO rgx ord s parentLocal q rest

/-- Loop of validateChoice over the children, returning the accumulated
errors and the tally list of matched local names in child order. -/
def choiceChildrenO (rgx : RegexEngine) (ord : MapOrd) (s : Schema) (parentLocal : String)
    (cho : Choice) : List Node → List String × List String
  | [] => ([], [])
  | c :: rest =>
    let p := choiceChildrenO rgx ord s parentLocal cho rest
    match s.findChoiceElement c.name cho with
    | some cd => (validateNodeO rgx ord s c cd ++ p.1, c.name.localName :: p.2)
    | none =>
      (("element <" ++ c.name.localName ++ "> is not a valid choice for <" ++ parentLocal ++ ">")
        :: p.1, p.2)

/-- Loop of validateAll over the children. -/
def allChildrenO (rgx : RegexEngine) (ord : MapOrd) (s : Schema) (parentLocal : String)
    (a : All) : List Node → List String
  | [] => []
  | c :: rest =>
    (match s.findAllElement c.name a with
     | some cd => validateNodeO rgx ord s c cd
     | none =>
       ["element <" ++ c.name.localName ++ "> is not allowed in xs:all group of <" ++
         parentLocal ++ ">"]) ++
    allChildrenO rgx ord s parentLocal a rest

end

/-- validateSequence (part_002): per-child matching and recursion, then the
occurrence checks over the counts of all children. -/
def validateSequenceO (rgx : RegexEngine) (ord : MapOrd) (s : Schema) (n : Node) (q : Sequence) :
    List String :=
  seqChildrenO rgx ord s n.name.localName q n.children ++
  validateSequenceOccurrences n.name.localName q n.children

/-- validateChoice (part_002): empty children only allowed for an explicit
minOccurs of 0; otherwise children are matched and tallied and, at the
default effective maxOccurs of 1, more than one distinct matched name is
the only-one-alternative violation, its name list enumerated in map order. -/
def validateChoiceO (rgx : RegexEngine) (ord : MapOrd) (s : Schema) (n : Node) (cho : Choice) :
    List String :=
  if n.children.isEmpty then
    (if cho.minOccurs == "" || cho.minOccurs != "0" then
       ["element <" ++ n.name.localName ++ "> must contain at least one choice element"]
     else [])
  else
    let maxO : Int :=
      if cho.maxOccurs != "" then
        if cho.maxOccurs == "unbounded" then -1
        else
          match goAtoi cho.maxOccurs with
          | (v, true) => v
          | (_, false) => 1
      else 1
    let p := choiceChildrenO rgx ord s n.name.localName cho n.children
    let distinct := dedupFirst p.2
    p.1 ++
    (if maxO == 1 && distinct.length > 1 then
       ["element <" ++ n.name.localName ++ "> choice allows only one alternative, but found: [" ++
         String.intercalate ", " (ord distinct) ++ "]"]
     else [])

/-- validateAll (part_002): duplicate-name violations first (enumerated in
map order), then per-child matching and recursion, then the required-
element sweep over the declared elements. -/
def validateAllO (rgx : RegexEngine) (ord : MapOrd) (s : Schema) (n : Node) (a : All) :
    List String :=
  (ord (dedupFirst (n.children.map (fun c => c.name.localName)))).filterMap (fun k =>
    let cnt := countLocalName n.children k
    if cnt > 1 then
      some ("element <" ++ k ++ "> appears " ++ toString cnt ++
        " times in xs:all group, but maximum is 1")
    else none) ++
  allChildrenO rgx ord s n.name.localName a n.children ++
  a.elements.flatMap (fun e =>
    if (e.minOccurs == "" || e.minOccurs != "0") && countLocalName n.children e.name == 0 then
      ["required element <" ++ e.name ++ "> is missing from xs:all group in <" ++
        n.name.localName ++ ">"]
    else [])

/-- validateComplexType (part_002): attributes, then exactly one of the
three content models. -/
def validateComplexTypeO (rgx : RegexEngine) (ord : MapOrd) (s : Schema) (n : Node)
    (ct : ComplexType) : List String :=
  s.validateAttributes rgx n.name.localName n.attrs ct.attributes ++
  (match ct.sequence with
   | some q => validateSequenceO rgx ord s n q
   | none =>
     match ct.choice with
     | some c => validateChoiceO rgx ord s n c
     | none =>
       match ct.all with
       | some a => validateAllO rgx ord s n a
       | none => [])

/-- Unfolding of `validateNodeO` through the named per-model validators:
exactly the composition of validateNode, validateComplexType and the
content-model dispatch in the Go source. -/
theorem validateNodeO_eq (rgx : RegexEngine) (ord : MapOrd) (s : Schema) (n : Node)
    (d : Element) :
    validateNodeO rgx ord s n d =
      (if n.children.isEmpty && goTrim n.content != "" then
         s.validateTextContent rgx n.content d
       else []) ++
      (match s.getComplexType d with
       | some ct => validateComplexTypeO rgx ord s n ct
       | none =>
         if !n.children.isEmpty then
           ["element <" ++ n.name.localName ++ "> should be empty but has children"]
         else []) := by
  cases n with
  | mk nm attrs ch content =>
    show validateNodeO rgx ord s (.mk nm attrs ch content) d = _
    rw [validateNodeO]
    rcases s.getComplexType d with _ | ct
    · rfl
    · rcases hs : ct.sequence with _ | q
      · rcases hc : ct.choice with _ | c
        · rcases ha : ct.all with _ | a <;>
            simp [validateComplexTypeO, validateSequenceO, validateChoiceO, validateAllO,
              Node.name, Node.attrs, Node.children, Node.content, hs, hc, ha]
        · simp [validateComplexTypeO, validateSequenceO, validateChoiceO,
            Node.name, Node.attrs, Node.children, Node.content, hs, hc]
      · simp [validateComplexTypeO, validateSequenceO,
          Node.name, Node.attrs, Node.children, Node.content, hs]

/-- Validate (part_002): whole-document entry point; the returned list is
the `ValidationError.Errors` slice, empty meaning a nil error. -/
def Schema.validateO (rgx : RegexEngine) (ord : MapOrd) (s : Schema) (doc : Document) :
    List String :=
  match doc.root with
  | none => ["XML document is empty"]
  | some root =>
    match lookupAssoc s.elementMap (s.getElementKey root.name) with
    | some d => validateNodeO rgx ord s root d
    | none =>
      match lookupAssoc s.elementMap root.name.localName with
      | some d => validateNodeO rgx ord s root d
      | none =>
        ["root element <" ++ root.name.localName ++ "> is not defined in the schema"]

/-- Go `filepath.IsAbs` for slash paths. -/
def filepathIsAbs (p : String) : Bool :=
  isPrefixList "/".data p.data

/-- Go `filepath.Join` without the final Clean step; the resolver theorems
only join simple relative names under a directory. -/
def filepathJoin (base p : String) : String :=
  base ++ "/" ++ p

/-- Go `filepath.Dir`: everything before the final separator. -/
def filepathDir (p : String) : String :=
  let parts := (splitCharList '/' p.data).map String.mk
  if parts.length ≤ 1 then "."
  else
    let d := String.intercalate "/" parts.dropLast
    if d == "" then "/" else d

/-- Store of decoded schema fragments keyed by location: the model of
`loadSchema` plus `encoding/xml` decoding, which are external collaborators
(file system, network, decoder) of the resolver. -/
abbrev SchemaStore := List (String × Schema)

/-- Number of store locations not yet on the cycle-detection path: the
measure that makes the Go resolver's recursion terminate. -/
def unvisitedCount (store : SchemaStore) (visited : List String) : Nat :=
  ((store.map Prod.fst).filter (fun k => !visited.contains k)).length

/-- Filtering with a pointwise-weaker predicate keeps at most as many
elements. -/
theorem length_filter_mono {α : Type} (p q : α → Bool) (himp : ∀ x, q x = true → p x = true)
    (l : List α) : (l.filter q).length ≤ (l.filter p).length := by
  induction l with
  | nil => simp
  | cons b t ih =>
    by_cases hq : q b = true
    · have hp := himp b hq
      simp only [List.filter_cons, hq, hp, if_true, List.length_cons]
      omega
    · have hq' : q b = false := by simpa using hq
      by_cases hp : p b = true
      · simp only [List.filter_cons, hq', hp, if_true, Bool.false_eq_true, if_false,
          List.length_cons]
        omega
      · have hp' : p b = false := by simpa using hp
        simp only [List.filter_cons, hq', hp', Bool.false_eq_true, if_false]
        exact ih

/-- Filtering with a strictly-weaker predicate that disagrees on a member
keeps strictly fewer elements. -/
theorem length_filter_lt {α : Type} (p q : α → Bool) (himp : ∀ x, q x = true → p x = true)
    (l : List α) (a : α) (ha : a ∈ l) (hpa : p a = true) (hqa : q a = false) :
    (l.filter q).length < (l.filter p).length := by
  induction l with
  | nil => cases ha
  | cons b t ih =>
    rcases List.mem_cons.mp ha with rfl | hat
    · have hmono := length_filter_mono p q himp t
      simp only [List.filter_cons, hqa, hpa, if_true, Bool.false_eq_true, if_false,
        List.length_cons]
      omega
    · by_cases hq : q b = true
      · have hp := himp b hq
        have := ih hat
        simp only [List.filter_cons, hq, hp, if_true, List.length_cons]
        omega
      · have hq' : q b = false := by simpa using hq
        by_cases hp : p b = true
        · have := ih hat
          simp only [List.filter_cons, hq', hp, if_true, Bool.false_eq_true, if_false,
            List.length_cons]
          omega
        · have hp' : p b = false := by simpa using hp
          simp only [List.filter_cons, hq', hp', Bool.false_eq_true, if_false]
          exact ih hat

/-- A successful store lookup means the key is among the store keys. -/
theorem mem_keys_of_lookupAssoc {α : Type} (m : List (String × α)) (k : String) (v : α)
    (h : lookupAssoc m k = some v) : k ∈ m.map Prod.fst := by
  unfold lookupAssoc at h
  rcases hf : m.find? (fun p => p.1 == k) with _ | p
  · rw [hf] at h
    cases h
  · have hmem := List.mem_of_find?_eq_some hf
    have hk := List.find?_some hf
    have : p.1 = k := by
      simpa using hk
    subst this
    exact List.mem_map.mpr ⟨p, hmem, rfl⟩

/-- Descending into a fresh store location strictly shrinks the measure. -/
theorem unvisitedCount_cons_lt (store : SchemaStore) (visited : List String) (k : String)
    (hmem : (lookupAssoc store k).isSome = true) (hnv : ¬ visited.contains k = true) :
    unvisitedCount store (k :: visited) < unvisitedCount store visited := by
  rcases hl : lookupAssoc store k with _ | v
  · rw [hl] at hmem
    cases hmem
  apply length_filter_lt
  · intro x hx
    have hx' : (k :: visited).contains x = false := by simpa using hx
    have : visited.contains x = false := by
      simp at hx' ⊢
      exact hx'.2
    simpa using this
  · exact mem_keys_of_lookupAssoc store k v hl
  · simpa using hnv
  · simp

/-- Renames an element declaration, as the import merge does. -/
def Element.withName (e : Element) (n : String) : Element :=
  match e with
  | .mk _ t mi ma c st => .mk n t mi ma c st

/-- Renames a complex type declaration. -/
def ComplexType.withName (ct : ComplexType) (n : String) : ComplexType :=
  match ct with
  | .mk _ sq ch al at_ => .mk n sq ch al at_

/-- getNamespacePrefix (`xsd.go`): a nonempty prefix bound to the namespace.
Go iterates its map in unspecified order; the model takes the first table
entry, and the resolver theorems bind at most one prefix per namespace. -/
def Schema.getNamespacePfx (s : Schema) (namespaceUri : String) : String :=
  match s.xmlns.find? (fun p => p.2 == namespaceUri && p.1 != "") with
  | some p => p.1
  | none => ""

/-- mergeImportedSchemaWithPrefix (`xsd.go`): append the imported
definitions under prefixed names. -/
def mergeImportedSchemaWithPfx (s imported : Schema) (pfx : String) : Schema :=
  { s with
    elements := s.elements ++ imported.elements.map (fun e => e.withName (pfx ++ ":" ++ e.name)),
    complexTypes := s.complexTypes ++
      imported.complexTypes.map (fun ct => ct.withName (pfx ++ ":" ++ ct.name)),
    simpleTypes := s.simpleTypes ++
      imported.simpleTypes.map (fun st => { st with name := pfx ++ ":" ++ st.name }) }

mutual

/-- parseXSDWithImportsAndTracker (`xsd.go`) after decoding: build the basic
lookup maps, process includes then imports against the location store, and
rebuild the lookup maps over the merged collections. -/
def parseXSDWithTrackerT (store : SchemaStore) (raw : Schema) (basePath : String)
    (visited : List String) : Except String Schema :=
  match raw.buildLookupMaps with
  | .error e => .error ("failed to build schema lookup maps: " ++ e)
  | .ok s0 =>
    match goIncImpT store s0 raw.includes raw.imports basePath visited with
    | .error e => .error ("failed to process imports and includes: " ++ e)
    | .ok s2 =>
      match s2.buildLookupMaps with
      | .error e =>
        .error ("failed to rebuild lookup maps after import/include processing: " ++ e)
      | .ok s3 => .ok s3
termination_by (unvisitedCount store visited, raw.includes.length + raw.imports.length + 2)
decreasing_by
  apply Prod.Lex.right
  omega

/-- processImportsAndIncludesWithTracker (`xsd.go`): includes first, then
imports, each wrapping its worker's failure; the same `visited` path set is
passed to every sibling, matching the Go deferred delete that removes a
location from the shared set on every return. -/
def goIncImpT (store : SchemaStore) (acc : Schema) (incs : List Include) (imps : List Import)
    (basePath : String) (visited : List String) : Except String Schema :=
  match incs with
  | inc :: rest =>
    match goIncludeT store acc inc basePath visited with
    | .error e => .error ("failed to process include '" ++ inc.schemaLocation ++ "': " ++ e)
    | .ok acc2 => goIncImpT store acc2 rest imps basePath visited
  | [] =>
    match imps with
    | imp :: rest =>
      match goImportT store acc imp basePath visited with
      | .error e => .error ("failed to process import '" ++ imp.schemaLocation ++ "': " ++ e)
      | .ok acc2 => goIncImpT store acc2 [] rest basePath visited
    | [] => .ok acc
termination_by (unvisitedCount store visited, incs.length + imps.length + 1)
decreasing_by
  all_goals
    apply Prod.Lex.right
    first
      | omega
      | (simp; try omega)

/-- processIncludeWithTracker (`xsd.go`): missing schemaLocation is fatal;
the location already being on the path is the circular-reference error;
otherwise the fragment is loaded, fully resolved with the location pushed
onto the path, and its collections appended.  (`filepath.Abs` is modelled
as the identity, so `cleanPath` coincides with the joined path that
`loadSchema` reads.) -/
def goIncludeT (store : SchemaStore) (acc : Schema) (inc : Include) (basePath : String)
    (visited : List String) : Except String Schema :=
  if inc.schemaLocation == "" then
    .error "include element is missing schemaLocation attribute"
  else
    let cleanPath :=
      if !filepathIsAbs inc.schemaLocation && basePath != "" then
        filepathJoin basePath inc.schemaLocation
      else inc.schemaLocation
    if hv : visited.contains cleanPath then
      .error ("circular reference detected: schema '" ++ cleanPath ++ "' already being processed")
    else
      if hl : (lookupAssoc store cleanPath).isSome then
        match parseXSDWithTrackerT store ((lookupAssoc store cleanPath).get hl)
            (filepathDir cleanPath) (cleanPath :: visited) with
        | .error e => .error ("failed to parse included schema: " ++ e)
        | .ok resolved =>
          .ok { acc with
                elements := acc.elements ++ resolved.elements,
                complexTypes := acc.complexTypes ++ resolved.complexTypes,
                simpleTypes := acc.simpleTypes ++ resolved.simpleTypes }
      else .error ("schema file not found: " ++ cleanPath)
termination_by (unvisitedCount store visited, 0)
decreasing_by
  apply Prod.Lex.left
  exact unvisitedCount_cons_lt store visited _ hl hv

/-- processImportWithTracker (`xsd.go`): an absent schemaLocation is
tolerated; after resolution the target namespace must match the declared
one, and the merged names are prefixed when a nonempty prefix is bound. -/
def goImportT (store : SchemaStore) (acc : Schema) (imp : Import) (basePath : String)
    (visited : List String) : Except String Schema :=
  if imp.schemaLocation == "" then
    .ok acc
  else
    let cleanPath :=
      if !filepathIsAbs imp.schemaLocation && basePath != "" then
        filepathJoin basePath imp.schemaLocation
      else imp.schemaLocation
    if hv : visited.contains cleanPath then
      .error ("circular reference detected: schema '" ++ cleanPath ++ "' already being processed")
    else
      if hl : (lookupAssoc store cleanPath).isSome then
        match parseXSDWithTrackerT store ((lookupAssoc store cleanPath).get hl)
            (filepathDir cleanPath) (cleanPath :: visited) with
        | .error e => .error ("failed to parse imported schema: " ++ e)
        | .ok resolved =>
          if imp.namespaceUri != "" && resolved.targetNamespace != imp.namespaceUri then
            .error ("imported schema target namespace '" ++ resolved.targetNamespace ++
              "' does not match expected namespace '" ++ imp.namespaceUri ++ "'")
          else
            let pfx := acc.getNamespacePfx imp.namespaceUri
            if pfx != "" then .ok (mergeImportedSchemaWithPfx acc resolved pfx)
            else
              .ok { acc with
                    elements := acc.elements ++ resolved.elements,
                    complexTypes := acc.complexTypes ++ resolved.complexTypes,
                    simpleTypes := acc.simpleTypes ++ resolved.simpleTypes }
      else .error ("schema file not found: " ++ cleanPath)
termination_by (unvisitedCount store visited, 0)
decreasing_by
  apply Prod.Lex.left
  exact unvisitedCount_cons_lt store visited _ hl hv

end

/-- ParseXSD (`xsd.go`) after decoding the root bytes: resolve against the
store with an empty path set and the default base path. -/
def parseXSDT (store : SchemaStore) (raw : Schema) (basePathArg : Option String) :
    Except String Schema :=
  let basePath :=
    match basePathArg with
    | some b => if b != "" then b else "."
    | none => "."
  parseXSDWithTrackerT store raw basePath []

/-! Concrete fixtures used by the witnesses and counterexamples below. -/

/-- Schema value with every collection empty. -/
def emptySchema : Schema :=
  { targetNamespace := "", elementFormDefault := "", xmlns := [], elements := [],
    complexTypes := [], simpleTypes := [], imports := [], includes := [],
    elementMap := [], complexTypeMap := [], simpleTypeMap := [] }

/-- Regex engine on which every pattern fails to compile; the theorems using
it never reach a pattern facet. -/
def rgx0 : RegexEngine := fun _ => none

/-- Identity map-enumeration oracle. -/
def idOrd : MapOrd := fun l => l

/-- Reversing map-enumeration oracle: a second faithful enumeration order. -/
def revOrd : MapOrd := fun l => l.reverse

/-- Restriction whose base type is unrecognized and whose minInclusive
limit is not a number. -/
def badLimitRestriction : Restriction :=
  { base := "custom", minLength := none, maxLength := none, pattern := none,
    minInclusive := some ⟨"xyz"⟩, maxInclusive := none, enumeration := [] }

/-- Fragment A of the include cycle: includes location /B.xsd. -/
def fragA : Schema := { emptySchema with includes := [⟨"/B.xsd"⟩] }

/-- Fragment B of the include cycle: includes location /A.xsd. -/
def fragB : Schema := { emptySchema with includes := [⟨"/A.xsd"⟩] }

/-- Store with the two mutually-including fragments. -/
def cycleStore : SchemaStore := [("/A.xsd", fragA), ("/B.xsd", fragB)]

/-- Fragment including both /B.xsd and /C.xsd, the diamond root. -/
def fragA2 : Schema := { emptySchema with includes := [⟨"/B.xsd"⟩, ⟨"/C.xsd"⟩] }

/-- Fragment including /D.xsd, used for both middle corners of the diamond. -/
def fragB2 : Schema := { emptySchema with includes := [⟨"/D.xsd"⟩] }

/-- Diamond store: A includes B and C, which both include the empty D; the
same location is entered on two sibling branches, so resolution succeeds
only because a branch removes its location from the path set on return. -/
def diamondStore : SchemaStore :=
  [("/B.xsd", fragB2), ("/C.xsd", fragB2), ("/D.xsd", emptySchema)]

/-- Fragment A of the import cycle. -/
def fragAi : Schema := { emptySchema with imports := [⟨"", "/B.xsd"⟩] }

/-- Fragment B of the import cycle. -/
def fragBi : Schema := { emptySchema with imports := [⟨"", "/A.xsd"⟩] }

/-- Store with the two mutually-importing fragments. -/
def impCycleStore : SchemaStore := [("/A.xsd", fragAi), ("/B.xsd", fragBi)]

/-- C7 counterexample: a minInclusive facet whose limit "xyz" is not a
number, on a restriction with the unrecognized base "custom", checked
against the non-numeric content "abc", reports nothing at all — the claim
demands a schema-authoring error for every content value, but the default
branch of parseNumericValues tests the content before the limit and
silently skips. -/
theorem C7_counterexample :
    goParseFloat "xyz" = none ∧
    validateNumericConstraints "abc" badLimitRestriction = [] :=
  ⟨by decide, by decide⟩

/-- C7, as amended: a numeric-bound facet whose limit value cannot be
parsed under the restriction's base type is reported as the invalid-limit
schema-authoring error for every content value that itself parses under
that base type; when the content does not parse, the integer and decimal
families report a content error instead and an unrecognized base silently
skips the check (see the counterexample). -/
theorem C7_invalid_limit_reported (content limit : String) (isMin inclusive : Bool)
    (base : String) :
    ((base == "xs:integer" || base == "xs:int" || base == "xs:long" ||
        base == "xs:short" || base == "xs:byte") = true →
      (goParseInt (goTrim content) 64).isSome = true →
      goParseInt limit 64 = none →
      validateNumericRange content limit isMin inclusive base =
        some ("invalid limit value in schema: " ++ limit)) ∧
    ((base == "xs:integer" || base == "xs:int" || base == "xs:long" ||
        base == "xs:short" || base == "xs:byte") = false →
      (base == "xs:decimal" || base == "xs:double" || base == "xs:float") = true →
      (goParseFloat (goTrim content)).isSome = true →
      goParseFloat limit = none →
      validateNumericRange content limit isMin inclusive base =
        some ("invalid limit value in schema: " ++ limit)) ∧
    ((base == "xs:integer" || base == "xs:int" || base == "xs:long" ||
        base == "xs:short" || base == "xs:byte") = false →
      (base == "xs:decimal" || base == "xs:double" || base == "xs:float") = false →
      (goParseFloat (goTrim content)).isSome = true →
      goParseFloat limit = none →
      validateNumericRange content limit isMin inclusive base =
        some ("invalid limit value in schema: " ++ limit)) := by
  refine ⟨?_, ?_, ?_⟩
  · intro hbase hc hl
    rcases ho : goParseInt (goTrim content) 64 with _ | v
    · rw [ho] at hc
      cases hc
    · simp only [validateNumericRange, parseNumericValues, hbase, if_true, ho, hl]
  · intro hint hdec hc hl
    rcases ho : goParseFloat (goTrim content) with _ | v
    · rw [ho] at hc
      cases hc
    · simp only [validateNumericRange, parseNumericValues, hint, hdec, Bool.false_eq_true,
        if_false, if_true, ho, hl]
  · intro hint hdec hc hl
    rcases ho : goParseFloat (goTrim content) with _ | v
    · rw [ho] at hc
      cases hc
    · simp only [validateNumericRange, parseNumericValues, hint, hdec, Bool.false_eq_true,
        if_false, ho, hl]

/-- C7 witness: base "custom" with numeric content and unparsable limit. -/
theorem C7_invalid_limit_reported_witness :
    validateNumericRange "1.5" "x" true true "custom" =
      some ("invalid limit value in schema: " ++ "x") :=
  (C7_invalid_limit_reported "1.5" "x" true true "custom").2.2
    (by decide) (by decide) (by decide) (by decide)

/-- Error produced by resolving the two-fragment include cycle. -/
def cycleErrMsg : String :=
  "failed to process imports and includes: failed to process include '/B.xsd': " ++
  "failed to parse included schema: failed to process imports and includes: " ++
  "failed to process include '/A.xsd': failed to parse included schema: " ++
  "failed to process imports and includes: failed to process include '/B.xsd': " ++
  "circular reference detected: schema '/B.xsd' already being processed"

/-- Error produced by resolving the two-fragment import cycle. -/
def impCycleErrMsg : String :=
  "failed to process imports and includes: failed to process import '/B.xsd': " ++
  "failed to parse imported schema: failed to process imports and includes: " ++
  "failed to process import '/A.xsd': failed to parse imported schema: " ++
  "failed to process imports and includes: failed to process import '/B.xsd': " ++
  "circular reference detected: schema '/B.xsd' already being processed"

set_option maxRecDepth 8000

/-- C3: resolving the include cycle A -> B -> A terminates with a load error
citing the circular reference (likewise for the import cycle), and the
location pushed on the cycle-detection path before a descent is released on
return from that branch: the diamond store, where two sibling branches both
include location /D.xsd, resolves successfully, which would be rejected as
circular if the first branch left /D.xsd on the path.  Termination itself
is carried by the definitions: the recursion is well-founded by the
`unvisitedCount` measure, which shrinks at every descent. -/
theorem C3_cycle_detection :
    parseXSDT cycleStore fragA none = .error cycleErrMsg ∧
    strContains cycleErrMsg "circular reference detected" = true ∧
    parseXSDT impCycleStore fragAi none = .error impCycleErrMsg ∧
    strContains impCycleErrMsg "circular reference detected" = true ∧
    (parseXSDT diamondStore fragA2 none).isOk = true := by
  refine ⟨?_, by decide, ?_, by decide, ?_⟩
  · simp [parseXSDT, parseXSDWithTrackerT, goIncImpT, goIncludeT, goImportT, cycleErrMsg,
      bind, Except.bind,
      show fragA.buildLookupMaps = .ok fragA from rfl,
      show fragB.buildLookupMaps = .ok fragB from rfl,
      show fragA.includes = [⟨"/B.xsd"⟩] from rfl,
      show fragA.imports = [] from rfl,
      show fragB.includes = [⟨"/A.xsd"⟩] from rfl,
      show fragB.imports = [] from rfl,
      show lookupAssoc cycleStore "/B.xsd" = some fragB from rfl,
      show lookupAssoc cycleStore "/A.xsd" = some fragA from rfl,
      show filepathIsAbs "/B.xsd" = true from by decide,
      show filepathIsAbs "/A.xsd" = true from by decide,
      show filepathDir "/B.xsd" = "/" from by decide,
      show filepathDir "/A.xsd" = "/" from by decide]
  · simp [parseXSDT, parseXSDWithTrackerT, goIncImpT, goIncludeT, goImportT, impCycleErrMsg,
      bind, Except.bind,
      show fragAi.buildLookupMaps = .ok fragAi from rfl,
      show fragBi.buildLookupMaps = .ok fragBi from rfl,
      show fragAi.includes = [] from rfl,
      show fragAi.imports = [⟨"", "/B.xsd"⟩] from rfl,
      show fragBi.includes = [] from rfl,
      show fragBi.imports = [⟨"", "/A.xsd"⟩] from rfl,
      show lookupAssoc impCycleStore "/B.xsd" = some fragBi from rfl,
      show lookupAssoc impCycleStore "/A.xsd" = some fragAi from rfl,
      show filepathIsAbs "/B.xsd" = true from by decide,
      show filepathIsAbs "/A.xsd" = true from by decide,
      show filepathDir "/B.xsd" = "/" from by decide,
      show filepathDir "/A.xsd" = "/" from by decide]
  · simp [parseXSDT, parseXSDWithTrackerT, goIncImpT, goIncludeT, goImportT,
      Schema.buildLookupMaps, buildNamedMap, bind, Except.bind, Schema.getNamespacePfx,
      show fragA2.includes = [⟨"/B.xsd"⟩, ⟨"/C.xsd"⟩] from rfl,
      show fragA2.imports = [] from rfl,
      show fragB2.includes = [⟨"/D.xsd"⟩] from rfl,
      show fragB2.imports = [] from rfl,
      show emptySchema.includes = [] from rfl,
      show emptySchema.imports = [] from rfl,
      show lookupAssoc diamondStore "/B.xsd" = some fragB2 from rfl,
      show lookupAssoc diamondStore "/C.xsd" = some fragB2 from rfl,
      show lookupAssoc diamondStore "/D.xsd" = some emptySchema from rfl,
      show filepathIsAbs "/B.xsd" = true from by decide,
      show filepathIsAbs "/C.xsd" = true from by decide,
      show filepathIsAbs "/D.xsd" = true from by decide,
      show filepathDir "/B.xsd" = "/" from by decide,
      show filepathDir "/C.xsd" = "/" from by decide,
      show filepathDir "/D.xsd" = "/" from by decide,
      fragA2, fragB2, emptySchema, Except.isOk, Except.toBool]

/-- A failed association-list lookup means the key is not among the keys. -/
theorem lookupAssoc_eq_none_iff {α : Type} (m : List (String × α)) (k : String) :
    lookupAssoc m k = none ↔ k ∉ m.map Prod.fst := by
  unfold lookupAssoc
  constructor
  · intro h hk
    rcases List.mem_map.mp hk with ⟨p, hp, hpk⟩
    rcases hf : m.find? (fun p => p.1 == k) with _ | q
    · have := List.find?_eq_none.mp hf p hp
      simp [hpk] at this
    · rw [hf] at h
      simp at h
  · intro h
    rcases hf : m.find? (fun p => p.1 == k) with _ | q
    · simp [hf]
    · have hqm := List.mem_of_find?_eq_some hf
      have hqk := List.find?_some hf
      have hq1 : q.1 = k := by simpa using hqk
      exact absurd (List.mem_map.mpr ⟨q, hqm, hq1⟩) h

/-- The map built by buildNamedMap keeps unique keys: a new name is
inserted only after the lookup in the already-built table fails. -/
theorem buildNamedMap_ok_nodup {α : Type} (kind : String) (getName : α → String) :
    ∀ (l : List α) (idx : Nat) (acc m : List (String × α)),
      (acc.map Prod.fst).Nodup → buildNamedMap kind getName idx acc l = .ok m →
      (m.map Prod.fst).Nodup := by
  intro l
  induction l with
  | nil =>
    intro idx acc m hacc h
    unfold buildNamedMap at h
    cases h
    exact hacc
  | cons x rest ih =>
    intro idx acc m hacc h
    unfold buildNamedMap at h
    by_cases hname : (getName x == "") = true
    · rw [if_pos hname] at h
      cases h
    · rw [if_neg hname] at h
      rcases hl : lookupAssoc acc (getName x) with _ | v
      · rw [hl] at h
        refine ih (idx + 1) (acc ++ [(getName x, x)]) m ?_ h
        rw [List.map_append]
        refine List.Nodup.append hacc (by simp) ?_
        intro a ha hmem
        have haeq : a = getName x := by simpa using hmem
        subst haeq
        exact (lookupAssoc_eq_none_iff acc _).mp hl ha
      · rw [hl] at h
        cases h

/-- buildNamedMap fails whenever a declaration lacks a name or a name
recurs (relative to the keys already inserted). -/
theorem buildNamedMap_isOk_false {α : Type} (kind : String) (getName : α → String) :
    ∀ (l : List α) (idx : Nat) (acc : List (String × α)),
      (acc.map Prod.fst).Nodup →
      ((∃ x ∈ l, getName x = "") ∨ ¬ ((acc.map Prod.fst) ++ l.map getName).Nodup) →
      (buildNamedMap kind getName idx acc l).isOk = false := by
  intro l
  induction l with
  | nil =>
    intro idx acc hacc hbad
    rcases hbad with ⟨x, hx, _⟩ | hnd
    · cases hx
    · exact absurd (by simpa using hacc) hnd
  | cons x rest ih =>
    intro idx acc hacc hbad
    unfold buildNamedMap
    by_cases hname : (getName x == "") = true
    · rw [if_pos hname]
      rfl
    · rw [if_neg hname]
      rcases hl : lookupAssoc acc (getName x) with _ | v
      · have hnewacc : ((acc ++ [(getName x, x)]).map Prod.fst).Nodup := by
          rw [List.map_append]
          refine List.Nodup.append hacc (by simp) ?_
          intro a ha hmem
          have haeq : a = getName x := by simpa using hmem
          subst haeq
          exact (lookupAssoc_eq_none_iff acc _).mp hl ha
        refine ih (idx + 1) (acc ++ [(getName x, x)]) hnewacc ?_
        rcases hbad with ⟨y, hy, hyname⟩ | hnd
        · rcases List.mem_cons.mp hy with rfl | hyr
          · exact absurd (by simpa using hyname) (by simpa using hname)
          · exact Or.inl ⟨y, hyr, hyname⟩
        · refine Or.inr ?_
          intro hnd2
          apply hnd
          have : acc.map Prod.fst ++ (x :: rest).map getName =
              (acc ++ [(getName x, x)]).map Prod.fst ++ rest.map getName := by
            simp
          rw [this]
          exact hnd2
      · rfl

/-- C4: a schema whose merged top-level collections contain a nameless
definition or two same-kind definitions sharing a name fails the lookup-map
build (hence schema loading, which runs it before any document is checked),
and every successfully built Schema has lookup tables with no duplicate
keys — including every schema produced by the full resolver. -/
theorem C4_no_duplicate_keys :
    (∀ s s2 : Schema, s.buildLookupMaps = .ok s2 →
      (s2.elementMap.map Prod.fst).Nodup ∧ (s2.complexTypeMap.map Prod.fst).Nodup ∧
      (s2.simpleTypeMap.map Prod.fst).Nodup) ∧
    (∀ s : Schema,
      ((∃ e ∈ s.elements, e.name = "") ∨ ¬ (s.elements.map Element.name).Nodup ∨
       (∃ c ∈ s.complexTypes, c.name = "") ∨ ¬ (s.complexTypes.map ComplexType.name).Nodup ∨
       (∃ t ∈ s.simpleTypes, t.name = "") ∨ ¬ (s.simpleTypes.map SimpleType.name).Nodup) →
      (s.buildLookupMaps).isOk = false) ∧
    (∀ (store : SchemaStore) (raw : Schema) (bp : String) (visited : List String) (s2 : Schema),
      parseXSDWithTrackerT store raw bp visited = .ok s2 →
      (s2.elementMap.map Prod.fst).Nodup ∧ (s2.complexTypeMap.map Prod.fst).Nodup ∧
      (s2.simpleTypeMap.map Prod.fst).Nodup) := by
  have hok : ∀ s s2 : Schema, s.buildLookupMaps = .ok s2 →
      (s2.elementMap.map Prod.fst).Nodup ∧ (s2.complexTypeMap.map Prod.fst).Nodup ∧
      (s2.simpleTypeMap.map Prod.fst).Nodup := by
    intro s s2 h
    unfold Schema.buildLookupMaps at h
    rcases he : buildNamedMap "element" Element.name 0 [] s.elements with e | em
    · rw [he] at h
      cases h
    rcases hc : buildNamedMap "complexType" ComplexType.name 0 [] s.complexTypes with e | cm
    · rw [he, hc] at h
      cases h
    rcases hs : buildNamedMap "simpleType" SimpleType.name 0 [] s.simpleTypes with e | sm
    · rw [he, hc, hs] at h
      cases h
    rw [he, hc, hs] at h
    cases h
    refine ⟨?_, ?_, ?_⟩
    · exact buildNamedMap_ok_nodup "element" Element.name s.elements 0 [] em (by simp) he
    · exact buildNamedMap_ok_nodup "complexType" ComplexType.name s.complexTypes 0 [] cm
        (by simp) hc
    · exact buildNamedMap_ok_nodup "simpleType" SimpleType.name s.simpleTypes 0 [] sm
        (by simp) hs
  refine ⟨hok, ?_, ?_⟩
  · intro s hbad
    unfold Schema.buildLookupMaps
    rcases he : buildNamedMap "element" Element.name 0 [] s.elements with e | em
    · simp [bind, Except.bind, he, Except.isOk, Except.toBool]
    rcases hc : buildNamedMap "complexType" ComplexType.name 0 [] s.complexTypes with e | cm
    · simp [bind, Except.bind, he, hc, Except.isOk, Except.toBool]
    rcases hs : buildNamedMap "simpleType" SimpleType.name 0 [] s.simpleTypes with e | sm
    · simp [bind, Except.bind, he, hc, hs, Except.isOk, Except.toBool]
    exfalso
    rcases hbad with h1 | h1 | h1 | h1 | h1 | h1
    · have := buildNamedMap_isOk_false "element" Element.name s.elements 0 [] (by simp)
        (Or.inl h1)
      rw [he] at this
      cases this
    · have := buildNamedMap_isOk_false "element" Element.name s.elements 0 [] (by simp)
        (Or.inr (by simpa using h1))
      rw [he] at this
      cases this
    · have := buildNamedMap_isOk_false "complexType" ComplexType.name s.complexTypes 0 []
        (by simp) (Or.inl h1)
      rw [hc] at this
      cases this
    · have := buildNamedMap_isOk_false "complexType" ComplexType.name s.complexTypes 0 []
        (by simp) (Or.inr (by simpa using h1))
      rw [hc] at this
      cases this
    · have := buildNamedMap_isOk_false "simpleType" SimpleType.name s.simpleTypes 0 []
        (by simp) (Or.inl h1)
      rw [hs] at this
      cases this
    · have := buildNamedMap_isOk_false "simpleType" SimpleType.name s.simpleTypes 0 []
        (by simp) (Or.inr (by simpa using h1))
      rw [hs] at this
      cases this
  · intro store raw bp visited s2 h
    rw [parseXSDWithTrackerT] at h
    split at h
    · cases h
    split at h
    · cases h
    split at h
    · cases h
    rename_i heq
    cases h
    exact hok _ s2 heq

/-- Schema with two top-level elements sharing the name "dup". -/
def dupSchema : Schema :=
  { emptySchema with elements := [.mk "dup" "" "" "" none none, .mk "dup" "" "" "" none none] }

/-- C4 witness: the duplicate-name schema fails the build, and the empty
schema's successfully built element table has no duplicate keys. -/
theorem C4_no_duplicate_keys_witness :
    (dupSchema.buildLookupMaps).isOk = false ∧
    (emptySchema.elementMap.map Prod.fst).Nodup :=
  ⟨C4_no_duplicate_keys.2.1 dupSchema (Or.inr (Or.inl (by decide))),
   (C4_no_duplicate_keys.1 emptySchema emptySchema rfl).1⟩

/-- C5: over a complex type's attribute declarations, a required attribute
absent from the node yields the required-missing violation; a present
attribute whose (effective, last-written) value differs from a declared
fixed value yields the fixed-value violation; and a node attribute that is
neither declared nor a namespace declaration yields the unexpected-
attribute violation. -/
theorem C5_attribute_checks (rgx : RegexEngine) (s : Schema) (nLocal : String)
    (nAttrs : List Attr) (defs : List Attribute) :
    (∀ ad ∈ defs, ad.use = "required" → attrValuesLookup nAttrs ad.name = none →
      ("required attribute '" ++ ad.name ++ "' is missing from element <" ++ nLocal ++ ">")
        ∈ s.validateAttributes rgx nLocal nAttrs defs) ∧
    (∀ ad ∈ defs, ∀ v, attrValuesLookup nAttrs ad.name = some v → ad.fixed ≠ "" →
      v ≠ ad.fixed →
      ("attribute '" ++ ad.name ++ "' in element <" ++ nLocal ++ "> has fixed value '" ++
        ad.fixed ++ "', but got '" ++ v ++ "'") ∈ s.validateAttributes rgx nLocal nAttrs defs) ∧
    (∀ a ∈ nAttrs, s.isNamespaceDeclaration a = false →
      (∀ ad ∈ defs, ad.name ≠ a.name.localName) →
      ("unexpected attribute '" ++ a.name.localName ++ "' in element <" ++ nLocal ++ ">")
        ∈ s.validateAttributes rgx nLocal nAttrs defs) := by
  unfold Schema.validateAttributes
  refine ⟨?_, ?_, ?_⟩
  · intro ad had hreq hlook
    apply List.mem_append_left
    apply List.mem_flatMap.mpr
    refine ⟨ad, had, ?_⟩
    rw [hlook]
    simp [hreq]
  · intro ad had v hlook hfix hne
    apply List.mem_append_left
    apply List.mem_flatMap.mpr
    refine ⟨ad, had, ?_⟩
    rw [hlook]
    apply List.mem_append_left
    apply List.mem_append_left
    simp [hfix, hne]
  · intro a ha hns hdecl
    apply List.mem_append_right
    apply List.mem_flatMap.mpr
    refine ⟨a, ha, ?_⟩
    rw [hns]
    have hany : (defs.any fun ad => ad.name == a.name.localName) = false := by
      rw [List.any_eq_false]
      intro ad had
      simpa using hdecl ad had
    simp [hany]

/-- Attribute declarations for the C5 witness: a required one and a fixed
one. -/
def witnessAttrDefs : List Attribute :=
  [⟨"id", "", "required", "", "", none⟩, ⟨"status", "", "", "", "active", none⟩]

/-- Node attributes for the C5 witness: the fixed attribute with the wrong
value and one undeclared attribute. -/
def witnessAttrs : List Attr :=
  [⟨⟨"", "status"⟩, "inactive"⟩, ⟨⟨"", "extra"⟩, "1"⟩]

/-- C5 witness: the three violations on a concrete node. -/
theorem C5_attribute_checks_witness :
    ("required attribute 'id' is missing from element <item>") ∈
      Schema.validateAttributes rgx0 emptySchema "item" witnessAttrs witnessAttrDefs ∧
    ("attribute 'status' in element <item> has fixed value 'active', but got 'inactive'") ∈
      Schema.validateAttributes rgx0 emptySchema "item" witnessAttrs witnessAttrDefs ∧
    ("unexpected attribute 'extra' in element <item>") ∈
      Schema.validateAttributes rgx0 emptySchema "item" witnessAttrs witnessAttrDefs := by
  refine ⟨?_, ?_, ?_⟩
  · have := (C5_attribute_checks rgx0 emptySchema "item" witnessAttrs witnessAttrDefs).1
      ⟨"id", "", "required", "", "", none⟩ (by decide) (by decide) (by decide)
    simpa using this
  · have := (C5_attribute_checks rgx0 emptySchema "item" witnessAttrs witnessAttrDefs).2.1
      ⟨"status", "", "", "", "active", none⟩ (by decide) "inactive" (by decide) (by decide)
      (by decide)
    simpa using this
  · have := (C5_attribute_checks rgx0 emptySchema "item" witnessAttrs witnessAttrDefs).2.2
      ⟨⟨"", "extra"⟩, "1"⟩ (by decide) (by decide) (by decide)
    simpa using this

/-- Simple type whose facets (enumeration and minLength 1) both reject the
empty string. -/
def facetedSimpleType : SimpleType :=
  ⟨"", some ⟨"xs:string", some ⟨"1"⟩, none, none, none, none, [⟨"x"⟩]⟩⟩

/-- Element declaration carrying the faceted simple type inline. -/
def facetedElement : Element := .mk "e" "" "" "" none (some facetedSimpleType)

/-- Leaf node whose accumulated text is whitespace only. -/
def blankLeaf : Node := .mk ⟨"", "e"⟩ [] [] " "

/-- C10: a leaf node whose trimmed text is empty never reaches
validateTextContent — its report is exactly the complex-type part,
whatever built-in type or facets its declaration carries; concretely, the
blank leaf under the faceted declaration reports nothing although the
facets reject the empty string. -/
theorem C10_blank_leaf_skips_simple_checks :
    (∀ (rgx : RegexEngine) (ord : MapOrd) (s : Schema) (n : Node) (d : Element),
      n.children = [] → goTrim n.content = "" →
      validateNodeO rgx ord s n d =
        (match s.getComplexType d with
         | some ct => validateComplexTypeO rgx ord s n ct
         | none => [])) ∧
    validateSimpleTypeConstraints rgx0 "" facetedSimpleType ≠ [] ∧
    validateNodeO rgx0 idOrd emptySchema blankLeaf facetedElement = [] := by
  refine ⟨?_, by decide, by decide⟩
  intro rgx ord s n d hch hct
  rw [validateNodeO_eq]
  rcases hgc : s.getComplexType d with _ | ct <;>
    simp [hch, hct, hgc]

/-- C10 witness: the general clause applied to the blank leaf. -/
theorem C10_blank_leaf_skips_simple_checks_witness :
    validateNodeO rgx0 idOrd emptySchema blankLeaf facetedElement =
      (match emptySchema.getComplexType facetedElement with
       | some ct => validateComplexTypeO rgx0 idOrd emptySchema blankLeaf ct
       | none => []) :=
  C10_blank_leaf_skips_simple_checks.1 rgx0 idOrd emptySchema blankLeaf facetedElement
    rfl (by decide)

/-- Membership in the deduplicated key list. -/
theorem mem_dedupFirstAux : ∀ (l seen : List String) (k : String),
    k ∈ dedupFirstAux seen l ↔ k ∈ l ∧ k ∉ seen := by
  intro l
  induction l with
  | nil => simp [dedupFirstAux]
  | cons x rest ih =>
    intro seen k
    unfold dedupFirstAux
    by_cases hx : seen.contains x = true
    · rw [if_pos hx]
      rw [ih]
      have hxm : x ∈ seen := by simpa using hx
      constructor
      · rintro ⟨hkr, hks⟩
        exact ⟨List.mem_cons_of_mem _ hkr, hks⟩
      · rintro ⟨hk, hks⟩
        rcases List.mem_cons.mp hk with rfl | hkr
        · exact absurd hxm hks
        · exact ⟨hkr, hks⟩
    · rw [if_neg hx]
      have hxm : x ∉ seen := by simpa using hx
      simp only [List.mem_cons, ih, List.mem_append, List.mem_singleton]
      constructor
      · rintro (rfl | ⟨hkr, hks⟩)
        · exact ⟨Or.inl rfl, hxm⟩
        · exact ⟨Or.inr hkr, fun hs => hks (Or.inl hs)⟩
      · rintro ⟨rfl | hkr, hks⟩
        · exact Or.inl rfl
        · by_cases hkx : k = x
          · exact Or.inl hkx
          · refine Or.inr ⟨hkr, fun hs => ?_⟩
            rcases hs with h | h
            · exact hks h
            · exact hkx (by simpa using h)

/-- The deduplicated key list has no duplicates. -/
theorem nodup_dedupFirstAux : ∀ (l seen : List String), (dedupFirstAux seen l).Nodup := by
  intro l
  induction l with
  | nil => intro seen; simp [dedupFirstAux]
  | cons x rest ih =>
    intro seen
    unfold dedupFirstAux
    by_cases hx : seen.contains x = true
    · rw [if_pos hx]
      exact ih seen
    · rw [if_neg hx]
      refine List.Nodup.cons ?_ (ih (seen ++ [x]))
      intro hmem
      exact ((mem_dedupFirstAux rest (seen ++ [x]) x).mp hmem).2 (by simp)

/-- Membership in `dedupFirst` is membership in the original list. -/
theorem mem_dedupFirst (l : List String) (k : String) : k ∈ dedupFirst l ↔ k ∈ l := by
  unfold dedupFirst
  rw [mem_dedupFirstAux]
  simp

/-- A name with a positive count occurs among the children's local names. -/
theorem mem_locals_of_count_pos (cs : List Node) (k : String)
    (h : 0 < countLocalName cs k) : k ∈ cs.map (fun c => c.name.localName) := by
  unfold countLocalName at h
  rcases hf : cs.filter (fun c => c.name.localName == k) with _ | ⟨c, t⟩
  · rw [hf] at h
    simp at h
  · have hc : c ∈ cs.filter (fun c => c.name.localName == k) := by
      rw [hf]
      exact List.mem_cons_self _ _
    have hcc := List.mem_filter.mp hc
    exact List.mem_map.mpr ⟨c, hcc.1, by simpa using hcc.2⟩

/-- C6: in an all-group, every child name observed more than once yields
the appears-N-times violation, independently of any declared occurrence
bounds, and every declared element whose minOccurs is not the explicit "0"
with an observed count of zero yields the required-missing violation. -/
theorem C6_all_group (rgx : RegexEngine) (ord : MapOrd) (hord : ∀ l, List.Perm (ord l) l)
    (s : Schema) (n : Node) (a : All) :
    (∀ k, 2 ≤ countLocalName n.children k →
      ("element <" ++ k ++ "> appears " ++ toString (countLocalName n.children k) ++
        " times in xs:all group, but maximum is 1") ∈ validateAllO rgx ord s n a) ∧
    (∀ e ∈ a.elements, e.minOccurs ≠ "0" → countLocalName n.children e.name = 0 →
      ("required element <" ++ e.name ++ "> is missing from xs:all group in <" ++
        n.name.localName ++ ">") ∈ validateAllO rgx ord s n a) := by
  unfold validateAllO
  constructor
  · intro k hk
    apply List.mem_append_left
    apply List.mem_append_left
    apply List.mem_filterMap.mpr
    refine ⟨k, ?_, ?_⟩
    · exact (hord _).mem_iff.mpr ((mem_dedupFirst _ k).mpr
        (mem_locals_of_count_pos n.children k (by omega)))
    · simp only []
      rw [if_pos (by omega)]
  · intro e he hmin hcount
    apply List.mem_append_right
    apply List.mem_flatMap.mpr
    refine ⟨e, he, ?_⟩
    have hbne : (e.minOccurs != "0") = true := by
      simpa using hmin
    simp [hbne, hcount]

/-- All-group fixture for the C6 witness: one declared element "y". -/
def allFixture : All := .mk [.mk "y" "" "" "" none none] ""

/-- Node with the child name "x" twice for the C6 witness. -/
def dupChildNode : Node :=
  .mk ⟨"", "g"⟩ [] [.mk ⟨"", "x"⟩ [] [] "", .mk ⟨"", "x"⟩ [] [] ""] ""

/-- C6 witness: duplicate-name and required-missing violations on the
concrete all-group. -/
theorem C6_all_group_witness :
    ("element <x> appears 2 times in xs:all group, but maximum is 1") ∈
      validateAllO rgx0 idOrd emptySchema dupChildNode allFixture ∧
    ("required element <y> is missing from xs:all group in <g>") ∈
      validateAllO rgx0 idOrd emptySchema dupChildNode allFixture := by
  constructor
  · have := (C6_all_group rgx0 idOrd (fun l => List.Perm.refl l) emptySchema dupChildNode
      allFixture).1 "x" (by decide)
    simpa using this
  · have := (C6_all_group rgx0 idOrd (fun l => List.Perm.refl l) emptySchema dupChildNode
      allFixture).2 (.mk "y" "" "" "" none none) (by simp [allFixture, All.elements]) (by decide) (by decide)
    simpa using this

/-- When every child matches a choice alternative and every matched child
validates cleanly, the choice loop returns no errors and tallies exactly
the children's local names in order. -/
theorem choiceChildrenO_all_matched (rgx : RegexEngine) (ord : MapOrd) (s : Schema)
    (parentLocal : String) (cho : Choice) :
    ∀ cs : List Node,
      (∀ c ∈ cs, (s.findChoiceElement c.name cho).isSome = true) →
      (∀ c ∈ cs, ∀ cd, s.findChoiceElement c.name cho = some cd →
        validateNodeO rgx ord s c cd = []) →
      choiceChildrenO rgx ord s parentLocal cho cs =
        ([], cs.map (fun c => c.name.localName)) := by
  intro cs
  induction cs with
  | nil => intro _ _; rfl
  | cons c rest ih =>
    intro hm hv
    rw [choiceChildrenO]
    rw [ih (fun x hx => hm x (List.mem_cons_of_mem _ hx))
        (fun x hx => hv x (List.mem_cons_of_mem _ hx))]
    rcases hf : s.findChoiceElement c.name cho with _ | cd
    · have := hm c (List.mem_cons_self _ _)
      rw [hf] at this
      cases this
    · simp [hv c (List.mem_cons_self _ _) cd hf]

/-- A list with no duplicates containing two distinct members has length
at least two. -/
theorem one_lt_length_of_two_mem {l : List String} {a b : String}
    (ha : a ∈ l) (hb : b ∈ l) (hab : a ≠ b) : 1 < l.length := by
  match l with
  | [] => cases ha
  | [x] =>
    have hax : a = x := by simpa using ha
    have hbx : b = x := by simpa using hb
    exact absurd (hax.trans hbx.symm) hab
  | x :: y :: t => simp only [List.length_cons]; omega

/-- C1: against a choice with unspecified (default) occurrence bounds, a
node whose children all match declared alternatives carrying exactly two
distinct local names, each matched child validating cleanly, reports
exactly one violation — the one citing that the choice allows only one
alternative, listing the names in map order. -/
theorem C1_choice_two_alternatives (rgx : RegexEngine) (ord : MapOrd) (s : Schema)
    (n : Node) (cho : Choice) (n₁ n₂ : String)
    (hmin : cho.minOccurs = "") (hmax : cho.maxOccurs = "")
    (hmatch : ∀ c ∈ n.children, (s.findChoiceElement c.name cho).isSome = true)
    (hvalid : ∀ c ∈ n.children, ∀ cd, s.findChoiceElement c.name cho = some cd →
      validateNodeO rgx ord s c cd = [])
    (h1 : n₁ ∈ n.children.map (fun c => c.name.localName))
    (h2 : n₂ ∈ n.children.map (fun c => c.name.localName))
    (hne : n₁ ≠ n₂) :
    validateChoiceO rgx ord s n cho =
      ["element <" ++ n.name.localName ++
        "> choice allows only one alternative, but found: [" ++
        String.intercalate ", "
          (ord (dedupFirst (n.children.map (fun c => c.name.localName)))) ++ "]"] := by
  have hnonempty : n.children.isEmpty = false := by
    rcases hcs : n.children with _ | ⟨c, t⟩
    · rw [hcs] at h1
      cases h1
    · rfl
  unfold validateChoiceO
  rw [hnonempty]
  simp only [Bool.false_eq_true, if_false]
  rw [hmax]
  simp only [bne_self_eq_false, Bool.false_eq_true, if_false]
  rw [choiceChildrenO_all_matched rgx ord s n.name.localName cho n.children hmatch hvalid]
  have hlen : 1 < (dedupFirst (n.children.map (fun c => c.name.localName))).length :=
    one_lt_length_of_two_mem ((mem_dedupFirst _ _).mpr h1) ((mem_dedupFirst _ _).mpr h2) hne
  simp [hlen]

/-- Choice with the two alternatives a and b for the C1 witness. -/
def choiceFixture : Choice :=
  .mk [.mk "a" "" "" "" none none, .mk "b" "" "" "" none none] [] [] "" ""

/-- Node with one a child and one b child for the C1 witness. -/
def twoAltNode : Node :=
  .mk ⟨"", "root"⟩ [] [.mk ⟨"", "a"⟩ [] [] "", .mk ⟨"", "b"⟩ [] [] ""] ""

/-- C1 witness: exactly the single only-one-alternative violation on the
concrete choice node. -/
theorem C1_choice_two_alternatives_witness :
    validateChoiceO rgx0 idOrd emptySchema twoAltNode choiceFixture =
      ["element <root> choice allows only one alternative, but found: [a, b]"] := by
  have := C1_choice_two_alternatives rgx0 idOrd emptySchema twoAltNode choiceFixture "a" "b"
    rfl rfl
    (by
      intro c hc
      fin_cases hc <;> decide)
    (by
      intro c hc cd hcd
      fin_cases hc <;>
        · cases hcd
          decide)
    (by decide) (by decide) (by decide)
  simpa using this

/-- Sequence declaring only the prefixed name p:x with maxOccurs 0. -/
def seqP : Sequence := .mk [.mk "p:x" "" "" "0" none none] "" ""

/-- Node with one child whose local name is literally p:x. -/
def nodeP : Node := .mk ⟨"", "n"⟩ [] [.mk ⟨"", "p:x"⟩ [] [] ""] ""

/-- C2 counterexample: the child p:x matches no declared element (the
prefixed schema name resolves to local part x), yet countChildren counts it
under the key p:x, so the maxOccurs check against the declared element
p:x sees count 1 and reports the at-most violation — an unmatched child
contributed to a declared element's observed count, contradicting the
claim's exclusion clause. -/
theorem C2_counterexample :
    (emptySchema.findChildElement ⟨"", "p:x"⟩ seqP).isSome = false ∧
    validateSequenceO rgx0 idOrd emptySchema nodeP seqP =
      ["element <p:x> is not a valid child of <n>",
       "element <n> allows at most 0 <p:x> child, but found 1"] :=
  ⟨by decide, by decide⟩

/-- The sequence loop distributes over list append. -/
theorem seqChildrenO_append (rgx : RegexEngine) (ord : MapOrd) (s : Schema)
    (pl : String) (q : Sequence) :
    ∀ l1 l2 : List Node, seqChildrenO rgx ord s pl q (l1 ++ l2) =
      seqChildrenO rgx ord s pl q l1 ++ seqChildrenO rgx ord s pl q l2 := by
  intro l1
  induction l1 with
  | nil => intro l2; simp [seqChildrenO]
  | cons c rest ih =>
    intro l2
    rw [List.cons_append, seqChildrenO, seqChildrenO, ih, List.append_assoc]

/-- The sequence-occurrence report depends on the children only through
the per-name counts. -/
theorem validateSequenceOccurrences_congr (pl : String) (q : Sequence) (cs1 cs2 : List Node)
    (h : ∀ k, countLocalName cs1 k = countLocalName cs2 k) :
    validateSequenceOccurrences pl q cs1 = validateSequenceOccurrences pl q cs2 := by
  unfold validateSequenceOccurrences
  congr 1
  funext e
  rw [h e.name]

/-- An unmatched child whose local name has no colon differs from every
declared element name of the sequence: for unprefixed declared names the
match is exactly local-name equality, and prefixed declared names contain
a colon. -/
theorem unmatched_local_ne_declared (s : Schema) (cn : XmlName) (q : Sequence)
    (hfind : (s.findChildElement cn q).isSome = false)
    (hcolon : cn.localName.data.contains ':' = false) :
    ∀ e ∈ q.elements, cn.localName ≠ e.name := by
  intro e he heq
  have hnone : s.findChildElement cn q = none := by
    rcases hf : s.findChildElement cn q with _ | v
    · rfl
    · rw [hf] at hfind
      cases hfind
  have hall := List.find?_eq_none.mp hnone e he
  have hmatchFalse : s.elementsMatch cn e.name = false := by
    simpa using hall
  by_cases hc : e.name.data.contains ':' = true
  · rw [heq] at hcolon
    rw [hcolon] at hc
    cases hc
  · unfold Schema.elementsMatch at hmatchFalse
    have hc' : e.name.data.contains ':' = false := by simpa using hc
    rw [hc'] at hmatchFalse
    simp at hmatchFalse
    exact hmatchFalse heq

/-- An unmatched child's not-a-valid-child message appears in the
sequence loop's output. -/
theorem mem_seqChildrenO_of_unmatched (rgx : RegexEngine) (ord : MapOrd) (s : Schema)
    (pl : String) (q : Sequence) :
    ∀ (cs : List Node) (c : Node), c ∈ cs → s.findChildElement c.name q = none →
      ("element <" ++ c.name.localName ++ "> is not a valid child of <" ++ pl ++ ">") ∈
        seqChildrenO rgx ord s pl q cs := by
  intro cs
  induction cs with
  | nil => intro c hc; cases hc
  | cons d rest ih =>
    intro c hc hnone
    rw [seqChildrenO]
    rcases List.mem_cons.mp hc with rfl | hcr
    · rw [hnone]
      exact List.mem_append_left _ (List.mem_cons_self _ _)
    · exact List.mem_append_right _ (ih c hcr hnone)

/-- C2, as amended: every child matching no declared element is reported
as not a valid child and is not recursively validated (replacing its whole
subtree by any same-named node leaves the report unchanged); and it is
excluded from every declared element's observed count provided its local
name contains no colon (true of parser-produced documents) — the
counterexample shows a child whose local name textually equals a prefixed
declared name is counted. -/
theorem C2_unmatched_children (rgx : RegexEngine) (ord : MapOrd) (s : Schema) (q : Sequence) :
    (∀ (n : Node), ∀ c ∈ n.children, (s.findChildElement c.name q).isSome = false →
      ("element <" ++ c.name.localName ++ "> is not a valid child of <" ++
        n.name.localName ++ ">") ∈ validateSequenceO rgx ord s n q) ∧
    (∀ (nm : XmlName) (attrs : List Attr) (content : String) (pre post : List Node)
        (c c2 : Node),
      c.name = c2.name → (s.findChildElement c.name q).isSome = false →
      validateSequenceO rgx ord s (.mk nm attrs (pre ++ c :: post) content) q =
        validateSequenceO rgx ord s (.mk nm attrs (pre ++ c2 :: post) content) q) ∧
    (∀ c : Node, (s.findChildElement c.name q).isSome = false →
      c.name.localName.data.contains ':' = false →
      ∀ e ∈ q.elements, ∀ pre post : List Node,
        countLocalName (pre ++ c :: post) e.name = countLocalName (pre ++ post) e.name) := by
  refine ⟨?_, ?_, ?_⟩
  · intro n c hc hfind
    have hnone : s.findChildElement c.name q = none := by
      rcases hf : s.findChildElement c.name q with _ | v
      · rfl
      · rw [hf] at hfind
        cases hfind
    unfold validateSequenceO
    apply List.mem_append_left
    exact mem_seqChildrenO_of_unmatched rgx ord s n.name.localName q n.children c hc hnone
  · intro nm attrs content pre post c c2 hname hfind
    have hnone : s.findChildElement c.name q = none := by
      rcases hf : s.findChildElement c.name q with _ | v
      · rfl
      · rw [hf] at hfind
        cases hfind
    have hnone2 : s.findChildElement c2.name q = none := by
      rw [← hname]
      exact hnone
    unfold validateSequenceO
    have hch1 : (Node.mk nm attrs (pre ++ c :: post) content).children = pre ++ c :: post := rfl
    have hch2 : (Node.mk nm attrs (pre ++ c2 :: post) content).children = pre ++ c2 :: post := rfl
    have hnm : (Node.mk nm attrs (pre ++ c :: post) content).name =
        (Node.mk nm attrs (pre ++ c2 :: post) content).name := rfl
    rw [hch1, hch2, hnm]
    congr 1
    · rw [seqChildrenO_append, seqChildrenO_append, seqChildrenO, seqChildrenO, hnone, hnone2]
      have hlocal : c.name.localName = c2.name.localName := by rw [hname]
      rw [hlocal]
    · apply validateSequenceOccurrences_congr
      intro k
      unfold countLocalName
      by_cases hk : (c2.name.localName == k) = true
      · rw [List.filter_append, List.filter_append, List.filter_cons, List.filter_cons, hname, hk]
        simp
      · have hk2 : (c2.name.localName == k) = false := by simpa using hk
        rw [List.filter_append, List.filter_append, List.filter_cons, List.filter_cons, hname,
          hk2]
        simp
  · intro c hfind hcolon e he pre post
    have hne := unmatched_local_ne_declared s c.name q hfind hcolon e he
    unfold countLocalName
    rw [List.filter_append, List.filter_append, List.filter_cons]
    have : (c.name.localName == e.name) = false := by simpa using hne
    rw [this]
    simp

/-- Sequence declaring only w, for the C2 witness. -/
def seqW : Sequence := .mk [.mk "w" "" "" "" none none] "" ""

/-- Unmatched colon-free child z, as a leaf. -/
def zLeaf : Node := .mk ⟨"", "z"⟩ [] [] ""

/-- Same-named node with a different subtree and content. -/
def zTree : Node := .mk ⟨"", "z"⟩ [] [.mk ⟨"", "inner"⟩ [] [] "t"] "x"

/-- Node containing only the unmatched child z. -/
def nodeW : Node := .mk ⟨"", "n2"⟩ [] [zLeaf] ""

/-- C2 witness: the three amended clauses at the concrete fixture. -/
theorem C2_unmatched_children_witness :
    ("element <z> is not a valid child of <n2>") ∈
      validateSequenceO rgx0 idOrd emptySchema nodeW seqW ∧
    validateSequenceO rgx0 idOrd emptySchema (.mk ⟨"", "n2"⟩ [] ([] ++ zLeaf :: []) "") seqW =
      validateSequenceO rgx0 idOrd emptySchema (.mk ⟨"", "n2"⟩ [] ([] ++ zTree :: []) "") seqW ∧
    countLocalName ([] ++ zLeaf :: []) "w" = countLocalName ([] ++ []) "w" := by
  refine ⟨?_, ?_, ?_⟩
  · have := (C2_unmatched_children rgx0 idOrd emptySchema seqW).1 nodeW zLeaf
      (by simp [nodeW, Node.children]) (by decide)
    simpa using this
  · exact (C2_unmatched_children rgx0 idOrd emptySchema seqW).2.1 ⟨"", "n2"⟩ [] "" [] []
      zLeaf zTree rfl (by decide)
  · exact (C2_unmatched_children rgx0 idOrd emptySchema seqW).2.2 zLeaf (by decide) (by decide)
      (.mk "w" "" "" "" none none) (by simp [seqW, Sequence.elements]) [] []

/-- The sequence loop's output is permuted when the children are. -/
theorem seqChildrenO_perm (rgx : RegexEngine) (ord : MapOrd) (s : Schema) (pl : String)
    (q : Sequence) {cs cs2 : List Node} (h : List.Perm cs cs2) :
    List.Perm (seqChildrenO rgx ord s pl q cs) (seqChildrenO rgx ord s pl q cs2) := by
  induction h with
  | nil => exact .refl _
  | cons x _ ih =>
    rw [seqChildrenO, seqChildrenO]
    exact List.Perm.append_left _ ih
  | swap x y l =>
    rw [seqChildrenO, seqChildrenO, seqChildrenO, seqChildrenO]
    rw [← List.append_assoc, ← List.append_assoc]
    exact List.Perm.append_right _ List.perm_append_comm
  | trans _ _ ih1 ih2 => exact ih1.trans ih2

/-- C8: for a node whose children all match declared sequence elements,
permuting the children permutes the report (so acceptance is unchanged)
and leaves the occurrence-violation list literally identical, since only
per-name counts are compared against the bounds. -/
theorem C8_sequence_permutation (rgx : RegexEngine) (ord : MapOrd) (s : Schema)
    (n : Node) (q : Sequence) (cs2 : List Node) (hperm : List.Perm n.children cs2)
    (hmatch : ∀ c ∈ n.children, (s.findChildElement c.name q).isSome = true) :
    List.Perm (validateSequenceO rgx ord s n q)
      (validateSequenceO rgx ord s (.mk n.name n.attrs cs2 n.content) q) ∧
    validateSequenceOccurrences n.name.localName q cs2 =
      validateSequenceOccurrences n.name.localName q n.children ∧
    (validateSequenceO rgx ord s n q = [] ↔
      validateSequenceO rgx ord s (.mk n.name n.attrs cs2 n.content) q = []) := by
  have hocc : validateSequenceOccurrences n.name.localName q cs2 =
      validateSequenceOccurrences n.name.localName q n.children :=
    validateSequenceOccurrences_congr n.name.localName q cs2 n.children
      (fun k => by
        unfold countLocalName
        exact ((hperm.filter (fun c => c.name.localName == k)).length_eq).symm)
  have hseq : List.Perm (validateSequenceO rgx ord s n q)
      (validateSequenceO rgx ord s (.mk n.name n.attrs cs2 n.content) q) := by
    unfold validateSequenceO
    have hch : (Node.mk n.name n.attrs cs2 n.content).children = cs2 := rfl
    have hnm : (Node.mk n.name n.attrs cs2 n.content).name = n.name := rfl
    rw [hch, hnm]
    refine List.Perm.append (seqChildrenO_perm rgx ord s n.name.localName q hperm) ?_
    rw [hocc]
  refine ⟨hseq, hocc, ?_⟩
  constructor
  · intro h0
    rw [h0] at hseq
    exact hseq.symm.eq_nil
  · intro h0
    rw [h0] at hseq
    exact hseq.eq_nil

/-- Sequence declaring a and b for the C8 witness. -/
def seqAB : Sequence := .mk [.mk "a" "" "" "" none none, .mk "b" "" "" "" none none] "" ""

/-- Leaf child named a. -/
def aLeaf : Node := .mk ⟨"", "a"⟩ [] [] ""

/-- Leaf child named b. -/
def bLeaf : Node := .mk ⟨"", "b"⟩ [] [] ""

/-- Node whose children are a then b. -/
def nodeAB : Node := .mk ⟨"", "r"⟩ [] [aLeaf, bLeaf] ""

/-- C8 witness: the concrete a-b node against the reversed child order. -/
theorem C8_sequence_permutation_witness :
    List.Perm (validateSequenceO rgx0 idOrd emptySchema nodeAB seqAB)
      (validateSequenceO rgx0 idOrd emptySchema
        (.mk nodeAB.name nodeAB.attrs [bLeaf, aLeaf] nodeAB.content) seqAB) ∧
    (validateSequenceO rgx0 idOrd emptySchema nodeAB seqAB = [] ↔
      validateSequenceO rgx0 idOrd emptySchema
        (.mk nodeAB.name nodeAB.attrs [bLeaf, aLeaf] nodeAB.content) seqAB = []) := by
  have h := C8_sequence_permutation rgx0 idOrd emptySchema nodeAB seqAB [bLeaf, aLeaf]
    (List.Perm.swap bLeaf aLeaf [])
    (by
      intro c hc
      fin_cases hc <;> decide)
  exact ⟨h.1, h.2.2⟩

/-- Complex type whose content model is the two-alternative choice. -/
def ctC9 : ComplexType := .mk "" none (some choiceFixture) none []

/-- Root declaration carrying the choice complex type inline. -/
def rootDef : Element := .mk "root" "" "" "" (some ctC9) none

/-- Schema whose element table binds root. -/
def sC9 : Schema := { emptySchema with elementMap := [("root", rootDef)] }

/-- Document whose root has one a child and one b child. -/
def docC9 : Document := ⟨some twoAltNode⟩

/-- C9 counterexample: two faithful map-enumeration orders (identity and
reverse, both permutations) give different reports — the name list inside
the choice only-one-alternative message follows Go's randomized map
iteration order, so two invocations of Validate need not return identical
descriptions. -/
theorem C9_counterexample :
    Schema.validateO rgx0 idOrd sC9 docC9 ≠ Schema.validateO rgx0 revOrd sC9 docC9 ∧
    (∀ l : List String, List.Perm (idOrd l) l) ∧
    (∀ l : List String, List.Perm (revOrd l) l) :=
  ⟨by decide, fun l => List.Perm.refl l, fun l => List.reverse_perm l⟩

/-- The sequence loop's report length is enumeration-order-independent
when each child's recursive report length is. -/
theorem seqChildrenO_length_ord (rgx : RegexEngine) (ord1 ord2 : MapOrd) (s : Schema)
    (pl : String) (q : Sequence) :
    ∀ cs : List Node,
      (∀ c ∈ cs, ∀ d : Element,
        (validateNodeO rgx ord1 s c d).length = (validateNodeO rgx ord2 s c d).length) →
      (seqChildrenO rgx ord1 s pl q cs).length = (seqChildrenO rgx ord2 s pl q cs).length := by
  intro cs
  induction cs with
  | nil => intro _; rfl
  | cons c rest ih =>
    intro hIH
    rw [seqChildrenO, seqChildrenO, List.length_append, List.length_append]
    have hrest := ih (fun x hx d => hIH x (List.mem_cons_of_mem _ hx) d)
    rcases hf : s.findChildElement c.name q with _ | cd
    · rw [hrest]
    · rw [hIH c (List.mem_cons_self _ _) cd, hrest]

/-- The all loop's report length is enumeration-order-independent when
each child's recursive report length is. -/
theorem allChildrenO_length_ord (rgx : RegexEngine) (ord1 ord2 : MapOrd) (s : Schema)
    (pl : String) (a : All) :
    ∀ cs : List Node,
      (∀ c ∈ cs, ∀ d : Element,
        (validateNodeO rgx ord1 s c d).length = (validateNodeO rgx ord2 s c d).length) →
      (allChildrenO rgx ord1 s pl a cs).length = (allChildrenO rgx ord2 s pl a cs).length := by
  intro cs
  induction cs with
  | nil => intro _; rfl
  | cons c rest ih =>
    intro hIH
    rw [allChildrenO, allChildrenO, List.length_append, List.length_append]
    have hrest := ih (fun x hx d => hIH x (List.mem_cons_of_mem _ hx) d)
    rcases hf : s.findAllElement c.name a with _ | cd
    · rw [hrest]
    · rw [hIH c (List.mem_cons_self _ _) cd, hrest]

/-- The choice loop's tally is enumeration-order-independent, and its
report length is when each child's recursive report length is. -/
theorem choiceChildrenO_ord (rgx : RegexEngine) (ord1 ord2 : MapOrd) (s : Schema)
    (pl : String) (cho : Choice) :
    ∀ cs : List Node,
      (∀ c ∈ cs, ∀ d : Element,
        (validateNodeO rgx ord1 s c d).length = (validateNodeO rgx ord2 s c d).length) →
      (choiceChildrenO rgx ord1 s pl cho cs).2 = (choiceChildrenO rgx ord2 s pl cho cs).2 ∧
      (choiceChildrenO rgx ord1 s pl cho cs).1.length =
        (choiceChildrenO rgx ord2 s pl cho cs).1.length := by
  intro cs
  induction cs with
  | nil => intro _; exact ⟨rfl, rfl⟩
  | cons c rest ih =>
    intro hIH
    obtain ⟨ht, hl⟩ := ih (fun x hx d => hIH x (List.mem_cons_of_mem _ hx) d)
    rw [choiceChildrenO, choiceChildrenO]
    rcases hf : s.findChoiceElement c.name cho with _ | cd
    · refine ⟨ht, ?_⟩
      simp [hl]
    · refine ⟨by rw [ht], ?_⟩
      simp only [List.length_append]
      rw [hIH c (List.mem_cons_self _ _) cd, hl]

/-- Report length of a node's validation is independent of the map
enumeration order, over all faithful (permutation) orders. -/
theorem validateNodeO_length_ord (rgx : RegexEngine) (ord1 ord2 : MapOrd)
    (h1 : ∀ l, List.Perm (ord1 l) l) (h2 : ∀ l, List.Perm (ord2 l) l) (s : Schema) :
    ∀ (n : Node) (d : Element),
      (validateNodeO rgx ord1 s n d).length = (validateNodeO rgx ord2 s n d).length := by
  have main : ∀ (k : Nat) (n : Node), sizeOf n ≤ k → ∀ d : Element,
      (validateNodeO rgx ord1 s n d).length = (validateNodeO rgx ord2 s n d).length := by
    intro k
    induction k with
    | zero =>
      intro n hn
      exfalso
      cases n
      simp at hn
    | succ k ih =>
      intro n hn d
      cases n with
      | mk nm attrs ch content =>
        have hch : ∀ c ∈ ch, sizeOf c ≤ k := by
          intro c hc
          have hlt := List.sizeOf_lt_of_mem hc
          have hsz : sizeOf (Node.mk nm attrs ch content) =
              1 + sizeOf nm + sizeOf attrs + sizeOf ch + sizeOf content := by simp
          rw [hsz] at hn
          omega
        have hIH : ∀ c ∈ ch, ∀ d2 : Element,
            (validateNodeO rgx ord1 s c d2).length = (validateNodeO rgx ord2 s c d2).length :=
          fun c hc d2 => ih c (hch c hc) d2
        rw [validateNodeO, validateNodeO, List.length_append, List.length_append]
        congr 1
        rcases hgc : s.getComplexType d with _ | ct
        · simp only [hgc]
        · simp only [hgc, List.length_append]
          congr 1
          rcases hs : ct.sequence with _ | q
          · simp only [hs]
            rcases hc : ct.choice with _ | cho
            · simp only [hc]
              rcases ha : ct.all with _ | al
              · simp only [ha]
              · simp only [ha, List.length_append]
                have hperm : List.Perm
                    (ord1 (dedupFirst (ch.map (fun c => c.name.localName))))
                    (ord2 (dedupFirst (ch.map (fun c => c.name.localName)))) :=
                  (h1 _).trans (h2 _).symm
                rw [(hperm.filterMap _).length_eq,
                  allChildrenO_length_ord rgx ord1 ord2 s nm.localName al ch hIH]
            · simp only [hc]
              rcases hemp : ch.isEmpty with _ | _
              · simp only [Bool.false_eq_true, if_false]
                obtain ⟨ht, hl⟩ := choiceChildrenO_ord rgx ord1 ord2 s nm.localName cho ch hIH
                simp only [List.length_append]
                rw [ht, hl]
                by_cases hcond :
                    ((if cho.maxOccurs != "" then
                        if cho.maxOccurs == "unbounded" then (-1 : Int)
                        else
                          match goAtoi cho.maxOccurs with
                          | (v, true) => v
                          | (_, false) => 1
                      else 1) == 1 &&
                      decide (1 < (dedupFirst
                        (choiceChildrenO rgx ord2 s nm.localName cho ch).2).length)) = true
                · rw [if_pos hcond, if_pos hcond]
                  simp
                · rw [if_neg (by simpa using hcond), if_neg (by simpa using hcond)]
              · simp only [if_true]
          · simp only [hs, List.length_append]
            rw [seqChildrenO_length_ord rgx ord1 ord2 s nm.localName q ch hIH]
  intro n d
  exact main (sizeOf n) n (Nat.le_refl _) d

/-- C9, as amended: with a fixed enumeration order validation is a pure
function; across any two faithful enumeration orders the reports have the
same length and the same validity verdict, but the descriptions themselves
may differ (see the counterexample), since a choice violation lists the
matched alternative names in map-iteration order. -/
theorem C9_length_and_validity_deterministic (rgx : RegexEngine) (ord1 ord2 : MapOrd)
    (h1 : ∀ l, List.Perm (ord1 l) l) (h2 : ∀ l, List.Perm (ord2 l) l) (s : Schema)
    (doc : Document) :
    (Schema.validateO rgx ord1 s doc).length = (Schema.validateO rgx ord2 s doc).length ∧
    (Schema.validateO rgx ord1 s doc = [] ↔ Schema.validateO rgx ord2 s doc = []) := by
  have hlen : (Schema.validateO rgx ord1 s doc).length =
      (Schema.validateO rgx ord2 s doc).length := by
    unfold Schema.validateO
    rcases hroot : doc.root with _ | root
    · simp only [hroot]
    · simp only [hroot]
      rcases hk : lookupAssoc s.elementMap (s.getElementKey root.name) with _ | d
      · simp only [hk]
        rcases hk2 : lookupAssoc s.elementMap root.name.localName with _ | d2
        · simp only [hk2]
        · simp only [hk2]
          exact validateNodeO_length_ord rgx ord1 ord2 h1 h2 s root d2
      · simp only [hk]
        exact validateNodeO_length_ord rgx ord1 ord2 h1 h2 s root d
  refine ⟨hlen, ?_⟩
  rw [← List.length_eq_zero, ← List.length_eq_zero, hlen]

/-- C9 witness: the amended statement at the counterexample's fixture. -/
theorem C9_length_and_validity_deterministic_witness :
    (Schema.validateO rgx0 idOrd sC9 docC9).length =
      (Schema.validateO rgx0 revOrd sC9 docC9).length ∧
    (Schema.validateO rgx0 idOrd sC9 docC9 = [] ↔
      Schema.validateO rgx0 revOrd sC9 docC9 = []) :=
  C9_length_and_validity_deterministic rgx0 idOrd revOrd (fun l => List.Perm.refl l)
    (fun l => List.reverse_perm l) sC9 docC9

end XmlParser
